import Mathlib

/-!
Verification of the assembler/virtual-CPU core of the polyplay repository
(`asmEngine.ts`): CPU state, memory model, operand resolution, flag engine,
single-step execution, the run loop, and the two-pass assembler.

The definitions below are a shallow embedding of the TypeScript source.
JavaScript numbers are modelled as `Int` (exact for every value arising in
the checked claims), `Int32Array` register writes go through `toInt32`,
and the 4096-byte `DataView` RAM is a `List Nat` of bytes with the
`DataView` bounds checks made explicit.  A thrown JS exception is an
explicit error constructor carrying the (possibly partially mutated)
state, mirroring in-place mutation followed by `throw`.
-/

set_option maxRecDepth 40000

namespace AsmEngine

/-- JS `ToInt32` on an integral number (Int32Array element coercion). -/
def toInt32 (v : Int) : Int :=
  if v % 4294967296 < 2147483648 then v % 4294967296
  else v % 4294967296 - 4294967296

/-- JS `ToUint32` on an integral number (used for byte extraction). -/
def toUInt32 (v : Int) : Int := v % 4294967296

/-- Flags register: zero, negative, carry, overflow. -/
structure Flags where
  ZF : Bool
  NF : Bool
  CF : Bool
  OF : Bool
deriving DecidableEq, Repr

/-- CPU state: 8 general registers (Int32Array, length 8), stack pointer,
base pointer, instruction pointer (plain JS numbers), flags, halted bit. -/
structure CPU where
  R : List Int
  SP : Int
  BP : Int
  IP : Int
  F : Flags
  halted : Bool
deriving DecidableEq, Repr

def RAM_SIZE : Int := 4096

/-- `reset()` : registers zeroed, SP = BP = RAM_SIZE - 4, IP 0, flags clear.
The TS function takes a `Partial<CPU>` override; callers needing overrides
use a structure update on this value. -/
def reset : CPU :=
  { R := List.replicate 8 0
    SP := RAM_SIZE - 4
    BP := RAM_SIZE - 4
    IP := 0
    F := { ZF := false, NF := false, CF := false, OF := false }
    halted := false }

/-- Operand payload: the TS `value` field is `number | string`. -/
inductive OpVal where
  | num (n : Int)
  | str (s : String)
deriving DecidableEq, Repr

inductive OpType where
  | reg
  | imm
  | mem
  | label
deriving DecidableEq, Repr

structure Operand where
  type : OpType
  value : OpVal
  offset : Option Int := none
deriving DecidableEq, Repr

instance : Inhabited Operand := ⟨⟨OpType.imm, OpVal.num 0, none⟩⟩

structure Instruction where
  op : String
  operands : List Operand
  line : Nat
  source : String
deriving DecidableEq, Repr

instance : Inhabited Instruction := ⟨⟨"", [], 0, ""⟩⟩

/-- `Record<string, number>` label table with JS object semantics:
assignment overwrites, lookup yields the stored value or `undefined`. -/
abbrev Labels := List (String × Int)

def lookupLabel (ls : Labels) (s : String) : Option Int :=
  (ls.find? (fun p => p.1 = s)).map (fun p => p.2)

def setLabel (ls : Labels) (s : String) (v : Int) : Labels :=
  if ls.any (fun p => p.1 = s) then
    ls.map (fun p => if p.1 = s then (s, v) else p)
  else ls ++ [(s, v)]

structure Program where
  lines : List String
  ast : List Instruction
  labels : Labels
  dataSection : List Nat
  textStart : Int
deriving DecidableEq, Repr

/-- RAM: the byte contents of the `ArrayBuffer` backing the `DataView`. -/
abbrev Ram := List Nat

def byteAt (ram : Ram) (i : Nat) : Nat := (ram.get? i).getD 0

/-- Little-endian signed 32-bit read of 4 in-range bytes. -/
def read32 (ram : Ram) (a : Nat) : Int :=
  toInt32 (Int.ofNat (byteAt ram a + 256 * byteAt ram (a + 1) +
    65536 * byteAt ram (a + 2) + 16777216 * byteAt ram (a + 3)))

/-- Little-endian 32-bit write of 4 bytes. -/
def write32 (ram : Ram) (a : Nat) (v : Int) : Ram :=
  let u := (toUInt32 v).toNat
  ((((ram.set a (u % 256)).set (a + 1) (u / 256 % 256)).set
    (a + 2) (u / 65536 % 256)).set (a + 3) (u / 16777216 % 256))

def rangeErrMsg : String := "Offset is outside the bounds of the DataView"

/-- `DataView.getInt32(a, true)`: bounds-checked against the buffer length. -/
def dvGetInt32 (ram : Ram) (a : Int) : Except String Int :=
  if 0 ≤ a ∧ a + 4 ≤ (ram.length : Int) then Except.ok (read32 ram a.toNat)
  else Except.error rangeErrMsg

/-- `DataView.setInt32(a, v, true)`. -/
def dvSetInt32 (ram : Ram) (a : Int) (v : Int) : Except String Ram :=
  if 0 ≤ a ∧ a + 4 ≤ (ram.length : Int) then Except.ok (write32 ram a.toNat v)
  else Except.error rangeErrMsg

/-- `DataView.getUint8(a)`. -/
def dvGetUint8 (ram : Ram) (a : Int) : Except String Nat :=
  if 0 ≤ a ∧ a + 1 ≤ (ram.length : Int) then Except.ok (byteAt ram a.toNat)
  else Except.error rangeErrMsg

def oobMsg (addr : Int) : String :=
  "Memory access out of bounds: " ++ toString addr

def storeOobMsg (addr : Int) : String :=
  "Memory store out of bounds: " ++ toString addr

def undefLabelMsg (s : String) : String := "Undefined label: " ++ s

/-- The repeated TS read pattern
`regIndex === -1 ? cpu.SP : regIndex === -2 ? cpu.BP : cpu.R[regIndex]`.
The parser only produces indices in \x7b-2,-1,0..7\x7d; for other values the
source would read `undefined`, modelled here as the out-of-range default. -/
def regGet (cpu : CPU) (i : Int) : Int :=
  if i = -1 then cpu.SP
  else if i = -2 then cpu.BP
  else cpu.R.getD i.toNat 0

/-- The repeated TS write pattern: raw assignment for SP/BP, `Int32Array`
coercion for R0..R7 (`List.set` is, like `Int32Array`, a no-op out of range). -/
def regSet (cpu : CPU) (i : Int) (v : Int) : CPU :=
  if i = -1 then { cpu with SP := v }
  else if i = -2 then { cpu with BP := v }
  else { cpu with R := cpu.R.set i.toNat (toInt32 v) }

/-- The unchecked `as number` cast on an operand value; every use site in the
source receives a numeric value there. -/
def asNum : OpVal → Int
  | OpVal.num n => n
  | OpVal.str _ => 0

/-- `resolveOperand(operand, cpu, ram, labels)`.  Errors are the thrown
`Error` messages.  In the `mem` case the manual bounds check
`addr < 0 || addr >= RAM_SIZE - 3` precedes the `getInt32`, so the read
itself is in range for the 4096-byte RAM. -/
def resolveOperand (operand : Operand) (cpu : CPU) (ram : Ram)
    (labels : Labels) : Except String Int :=
  match operand.type with
  | OpType.imm => Except.ok (asNum operand.value)
  | OpType.reg =>
      let regIndex := asNum operand.value
      if regIndex = -1 then Except.ok cpu.SP
      else if regIndex = -2 then Except.ok cpu.BP
      else Except.ok (cpu.R.getD regIndex.toNat 0)
  | OpType.mem =>
      let addrE : Except String Int :=
        match operand.value with
        | OpVal.str s =>
            match lookupLabel labels s with
            | none => Except.error (undefLabelMsg s)
            | some a => Except.ok a
        | OpVal.num v =>
            if v < 0 then
              let base := if v = -1 then cpu.SP
                else if v = -2 then cpu.BP else cpu.R.getD v.toNat 0
              Except.ok (base + operand.offset.getD 0)
            else Except.ok v
      match addrE with
      | Except.error e => Except.error e
      | Except.ok addr =>
          if addr < 0 ∨ addr ≥ RAM_SIZE - 3 then Except.error (oobMsg addr)
          else Except.ok (read32 ram addr.toNat)
  | OpType.label =>
      match operand.value with
      | OpVal.str s =>
          match lookupLabel labels s with
          | none => Except.error (undefLabelMsg s)
          | some a => Except.ok a
      | OpVal.num n => Except.error (undefLabelMsg (toString n))

inductive FlagOp where
  | add
  | sub
  | mul
  | div
  | cmp
  | logic
deriving DecidableEq, Repr

/-- `setFlags(cpu, result, operation)`: ZF/NF always recomputed from the
raw (unwrapped) result; CF/OF recomputed only for `add`/`sub`. -/
def setFlags (cpu : CPU) (result : Int) (operation : FlagOp) : CPU :=
  let F1 : Flags := { cpu.F with ZF := decide (result = 0), NF := decide (result < 0) }
  if operation = FlagOp.add ∨ operation = FlagOp.sub then
    { cpu with F := { F1 with
        CF := decide (2147483647 < |result|)
        OF := decide (2147483647 < result ∨ result < -2147483648) } }
  else { cpu with F := F1 }

/-- Result of the body of one `switch` case: fall through to `cpu.IP++`,
return without the increment, or a thrown error (caught by the `try` and
wrapped into an `AsmError`), carrying the in-place-mutated state. -/
inductive ExecRes where
  | next (cpu : CPU) (ram : Ram)
  | jump (cpu : CPU) (ram : Ram)
  | throwE (msg : String) (cpu : CPU) (ram : Ram)
deriving DecidableEq, Repr

def tyErrMsg : String := "TypeError: cannot read properties of undefined"

/-- `SYS 2` string scan: `for (i = 0; i < 256; i++)` reading
`ram.getUint8(strAddr + i)` until a zero byte; the read may throw. -/
def sysReadStr (ram : Ram) (strAddr : Int) : Nat → Nat → Except String Unit
  | _, 0 => Except.ok ()
  | i, fuel + 1 =>
      match dvGetUint8 ram (strAddr + Int.ofNat i) with
      | Except.error m => Except.error m
      | Except.ok b =>
          if b = 0 then Except.ok ()
          else sysReadStr ram strAddr (i + 1) fuel

/-- Taken conditional jump: `resolveOperand(operands[0], ...)` then
`cpu.IP = target; return` (a missing operand is a TypeError inside the try). -/
def takeJump (operands : List Operand) (cpu : CPU) (ram : Ram)
    (labels : Labels) : ExecRes :=
  match operands.get? 0 with
  | none => ExecRes.throwE tyErrMsg cpu ram
  | some o =>
      match resolveOperand o cpu ram labels with
      | Except.error m => ExecRes.throwE m cpu ram
      | Except.ok target => ExecRes.jump { cpu with IP := target } ram

/-- Shared body of the ADD/SUB/MUL/DIV register update, parameterised by the
result computation and flag tag (the four cases are textually identical in
the source apart from these two points and the error strings): resolve the
source, require a register destination, store `f current src` through the
register triad and recompute flags on the raw result. -/
def arithCase (opName : String) (operands : List Operand) (cpu : CPU)
    (ram : Ram) (labels : Labels) (f : Int → Int → Int) (tag : FlagOp) : ExecRes :=
  if operands.length ≠ 2 then
    ExecRes.throwE (opName ++ " requires 2 operands") cpu ram
  else
    match resolveOperand (operands.getD 1 default) cpu ram labels with
    | Except.error m => ExecRes.throwE m cpu ram
    | Except.ok src =>
        if (operands.getD 0 default).type = OpType.reg then
          ExecRes.next
            (setFlags
              (regSet cpu (asNum (operands.getD 0 default).value)
                (f (regGet cpu (asNum (operands.getD 0 default).value)) src))
              (f (regGet cpu (asNum (operands.getD 0 default).value)) src) tag)
            ram
        else ExecRes.throwE (opName ++ " destination must be register") cpu ram

/-- The MOV source computation: a label resolves to its address (undefined
label throws), everything else goes through `resolveOperand`. -/
def movSrc (o1 : Operand) (cpu : CPU) (ram : Ram) (labels : Labels) :
    Except String Int :=
  if o1.type = OpType.label then
    match o1.value with
    | OpVal.str s =>
        match lookupLabel labels s with
        | none => Except.error (undefLabelMsg s)
        | some a => Except.ok a
    | OpVal.num n => Except.error (undefLabelMsg (toString n))
  else resolveOperand o1 cpu ram labels

/-- The LOAD source computation: the dedicated `[label]` path with its own
bounds check, everything else through `resolveOperand`. -/
def loadValue (o1 : Operand) (cpu : CPU) (ram : Ram) (labels : Labels) :
    Except String Int :=
  match o1.type, o1.value with
  | OpType.mem, OpVal.str s =>
      match lookupLabel labels s with
      | none => Except.error (undefLabelMsg s)
      | some addr =>
          if addr < 0 ∨ addr ≥ RAM_SIZE - 3 then Except.error (oobMsg addr)
          else Except.ok (read32 ram addr.toNat)
  | _, _ => resolveOperand o1 cpu ram labels

/-- The STORE destination address.  There is no undefined-label check in this
path of the source: an absent label (`undefined`) compares false against both
bounds and `setInt32` coerces it to offset 0, modelled by `getD 0`. -/
def storeAddr (o0 : Operand) (cpu : CPU) (labels : Labels) : Int :=
  match o0.value with
  | OpVal.str s => (lookupLabel labels s).getD 0
  | OpVal.num v =>
      if v < 0 then
        (if v = -1 then cpu.SP
         else if v = -2 then cpu.BP
         else cpu.R.getD v.toNat 0) + o0.offset.getD 0
      else v

/-- The LEA source address: label lookup (undefined label throws) or the
`operands[1].value as number` cast. -/
def leaAddr (o1 : Operand) (labels : Labels) : Except String Int :=
  if o1.type = OpType.label then
    match o1.value with
    | OpVal.str s =>
        match lookupLabel labels s with
        | none => Except.error (undefLabelMsg s)
        | some a => Except.ok a
    | OpVal.num n => Except.error (undefLabelMsg (toString n))
  else Except.ok (asNum o1.value)

/-- Body of the `switch (op)` inside `step`'s `try` block. -/
def exec (op : String) (operands : List Operand) (cpu : CPU) (ram : Ram)
    (labels : Labels) : ExecRes :=
  match op with
  | "NOP" => ExecRes.next cpu ram
  | "HALT" => ExecRes.jump { cpu with halted := true } ram
  | "MOV" =>
      if operands.length ≠ 2 then
        ExecRes.throwE ("MOV requires 2 operands") cpu ram
      else
        match movSrc (operands.getD 1 default) cpu ram labels with
        | Except.error m => ExecRes.throwE m cpu ram
        | Except.ok src =>
            if (operands.getD 0 default).type = OpType.reg then
              ExecRes.next (regSet cpu (asNum (operands.getD 0 default).value) src) ram
            else ExecRes.throwE ("MOV destination must be register") cpu ram
  | "LOAD" =>
      if operands.length ≠ 2 then
        ExecRes.throwE ("LOAD requires 2 operands") cpu ram
      else
        match loadValue (operands.getD 1 default) cpu ram labels with
        | Except.error m => ExecRes.throwE m cpu ram
        | Except.ok value =>
            if (operands.getD 0 default).type = OpType.reg then
              ExecRes.next (regSet cpu (asNum (operands.getD 0 default).value) value) ram
            else ExecRes.throwE ("LOAD destination must be register") cpu ram
  | "STORE" =>
      if operands.length ≠ 2 then
        ExecRes.throwE ("STORE requires 2 operands") cpu ram
      else
        match resolveOperand (operands.getD 1 default) cpu ram labels with
        | Except.error m => ExecRes.throwE m cpu ram
        | Except.ok value =>
            if (operands.getD 0 default).type = OpType.mem then
              if storeAddr (operands.getD 0 default) cpu labels < 0 ∨
                 storeAddr (operands.getD 0 default) cpu labels ≥ RAM_SIZE - 3 then
                ExecRes.throwE
                  (storeOobMsg (storeAddr (operands.getD 0 default) cpu labels))
                  cpu ram
              else
                ExecRes.next cpu
                  (write32 ram (storeAddr (operands.getD 0 default) cpu labels).toNat
                    value)
            else ExecRes.throwE ("STORE destination must be memory") cpu ram
  | "ADD" => arithCase ("ADD") operands cpu ram labels (fun a b => a + b) FlagOp.add
  | "SUB" => arithCase ("SUB") operands cpu ram labels (fun a b => a - b) FlagOp.sub
  | "MUL" => arithCase ("MUL") operands cpu ram labels (fun a b => a * b) FlagOp.mul
  | "DIV" =>
      if operands.length ≠ 2 then
        ExecRes.throwE ("DIV requires 2 operands") cpu ram
      else
        match resolveOperand (operands.getD 1 default) cpu ram labels with
        | Except.error m => ExecRes.throwE m cpu ram
        | Except.ok src =>
            if src = 0 then
              ExecRes.throwE ("Division by zero")
                { cpu with F := { cpu.F with CF := true } } ram
            else
              if (operands.getD 0 default).type = OpType.reg then
                -- `Math.floor(current / src)` = floor division (exact for
                -- the 32-bit operand magnitudes the machine produces)
                ExecRes.next
                  (setFlags
                    (regSet cpu (asNum (operands.getD 0 default).value)
                      (Int.fdiv (regGet cpu (asNum (operands.getD 0 default).value)) src))
                    (Int.fdiv (regGet cpu (asNum (operands.getD 0 default).value)) src)
                    FlagOp.div) ram
              else ExecRes.throwE ("DIV destination must be register") cpu ram
  | "CMP" =>
      if operands.length ≠ 2 then
        ExecRes.throwE ("CMP requires 2 operands") cpu ram
      else
        match resolveOperand (operands.getD 0 default) cpu ram labels with
        | Except.error m => ExecRes.throwE m cpu ram
        | Except.ok a =>
            match resolveOperand (operands.getD 1 default) cpu ram labels with
            | Except.error m => ExecRes.throwE m cpu ram
            | Except.ok b => ExecRes.next (setFlags cpu (a - b) FlagOp.cmp) ram
  | "JMP" =>
      if operands.length ≠ 1 then
        ExecRes.throwE ("JMP requires 1 operand") cpu ram
      else
        match resolveOperand (operands.getD 0 default) cpu ram labels with
        | Except.error m => ExecRes.throwE m cpu ram
        | Except.ok target => ExecRes.jump { cpu with IP := target } ram
  | "JZ" => if cpu.F.ZF then takeJump operands cpu ram labels else ExecRes.next cpu ram
  | "JNZ" => if ¬cpu.F.ZF then takeJump operands cpu ram labels else ExecRes.next cpu ram
  | "JC" => if cpu.F.CF then takeJump operands cpu ram labels else ExecRes.next cpu ram
  | "JNC" => if ¬cpu.F.CF then takeJump operands cpu ram labels else ExecRes.next cpu ram
  | "JG" =>
      if ¬cpu.F.ZF ∧ cpu.F.NF = cpu.F.OF then takeJump operands cpu ram labels
      else ExecRes.next cpu ram
  | "JGE" =>
      if cpu.F.NF = cpu.F.OF then takeJump operands cpu ram labels
      else ExecRes.next cpu ram
  | "JL" =>
      if cpu.F.NF ≠ cpu.F.OF then takeJump operands cpu ram labels
      else ExecRes.next cpu ram
  | "JLE" =>
      if cpu.F.ZF ∨ cpu.F.NF ≠ cpu.F.OF then takeJump operands cpu ram labels
      else ExecRes.next cpu ram
  | "INC" =>
      if operands.length ≠ 1 then
        ExecRes.throwE ("INC requires 1 operand") cpu ram
      else
        if (operands.getD 0 default).type = OpType.reg then
          ExecRes.next
            (setFlags
              (regSet cpu (asNum (operands.getD 0 default).value)
                (regGet cpu (asNum (operands.getD 0 default).value) + 1))
              (regGet cpu (asNum (operands.getD 0 default).value) + 1)
              FlagOp.add) ram
        else ExecRes.throwE ("INC destination must be register") cpu ram
  | "DEC" =>
      if operands.length ≠ 1 then
        ExecRes.throwE ("DEC requires 1 operand") cpu ram
      else
        if (operands.getD 0 default).type = OpType.reg then
          ExecRes.next
            (setFlags
              (regSet cpu (asNum (operands.getD 0 default).value)
                (regGet cpu (asNum (operands.getD 0 default).value) - 1))
              (regGet cpu (asNum (operands.getD 0 default).value) - 1)
              FlagOp.sub) ram
        else ExecRes.throwE ("DEC destination must be register") cpu ram
  | "LEA" =>
      if operands.length ≠ 2 then
        ExecRes.throwE ("LEA requires 2 operands") cpu ram
      else
        if (operands.getD 0 default).type = OpType.reg then
          match leaAddr (operands.getD 1 default) labels with
          | Except.error m => ExecRes.throwE m cpu ram
          | Except.ok addr =>
              ExecRes.next (regSet cpu (asNum (operands.getD 0 default).value) addr) ram
        else ExecRes.throwE ("LEA destination must be register") cpu ram
  | "SYS" =>
      if operands.length ≠ 1 then
        ExecRes.throwE ("SYS requires 1 operand") cpu ram
      else
        match resolveOperand (operands.getD 0 default) cpu ram labels with
        | Except.error m => ExecRes.throwE m cpu ram
        | Except.ok syscall =>
            if syscall = 1 then ExecRes.next cpu ram
            else if syscall = 2 then
              match sysReadStr ram (cpu.R.getD 1 0) 0 256 with
              | Except.error m => ExecRes.throwE m cpu ram
              | Except.ok _ => ExecRes.next cpu ram
            else if syscall = 3 then
              ExecRes.next { cpu with halted := true } ram
            else
              ExecRes.throwE ("Unknown syscall: " ++ toString syscall) cpu ram
  | "PUSH" =>
      if operands.length ≠ 1 then
        ExecRes.throwE ("PUSH requires 1 operand") cpu ram
      else
        match resolveOperand (operands.getD 0 default) cpu ram labels with
        | Except.error m => ExecRes.throwE m cpu ram
        | Except.ok value =>
            -- `cpu.SP -= 4` happens before the overflow check, so the
            -- decremented SP is observable in every failure below
            if cpu.SP - 4 < 0 then
              ExecRes.throwE ("Stack overflow") { cpu with SP := cpu.SP - 4 } ram
            else
              match dvSetInt32 ram (cpu.SP - 4) value with
              | Except.error m =>
                  ExecRes.throwE m { cpu with SP := cpu.SP - 4 } ram
              | Except.ok ram2 => ExecRes.next { cpu with SP := cpu.SP - 4 } ram2
  | "POP" =>
      if operands.length ≠ 1 then
        ExecRes.throwE ("POP requires 1 operand") cpu ram
      else
        if cpu.SP ≥ RAM_SIZE - 4 then ExecRes.throwE ("Stack underflow") cpu ram
        else
          match dvGetInt32 ram cpu.SP with
          | Except.error m => ExecRes.throwE m cpu ram
          | Except.ok value =>
              -- `cpu.SP += 4` happens before the destination-kind check
              if (operands.getD 0 default).type = OpType.reg then
                ExecRes.next
                  (regSet { cpu with SP := cpu.SP + 4 }
                    (asNum (operands.getD 0 default).value) value) ram
              else
                ExecRes.throwE ("POP destination must be register")
                  { cpu with SP := cpu.SP + 4 } ram
  | "CALL" =>
      if operands.length ≠ 1 then
        ExecRes.throwE ("CALL requires 1 operand") cpu ram
      else
        match resolveOperand (operands.getD 0 default) cpu ram labels with
        | Except.error m => ExecRes.throwE m cpu ram
        | Except.ok target =>
            if cpu.SP - 4 < 0 then
              ExecRes.throwE ("Stack overflow") { cpu with SP := cpu.SP - 4 } ram
            else
              match dvSetInt32 ram (cpu.SP - 4) (cpu.IP + 1) with
              | Except.error m =>
                  ExecRes.throwE m { cpu with SP := cpu.SP - 4 } ram
              | Except.ok ram2 =>
                  ExecRes.jump { cpu with SP := cpu.SP - 4, IP := target } ram2
  | "RET" =>
      if cpu.SP ≥ RAM_SIZE - 4 then ExecRes.throwE ("Stack underflow") cpu ram
      else
        match dvGetInt32 ram cpu.SP with
        | Except.error m => ExecRes.throwE m cpu ram
        | Except.ok v => ExecRes.jump { cpu with IP := v, SP := cpu.SP + 4 } ram
  | _ => ExecRes.throwE ("Unknown instruction: " ++ op) cpu ram

/-- Result of one `step(cpu, program, ram)` call: normal completion, a thrown
`AsmError(line, msg)`, or a raw TypeError thrown before the `try` block
(negative instruction pointer).  Error results carry the state as left by the
in-place mutations performed before the throw. -/
inductive StepRes where
  | ok (cpu : CPU) (ram : Ram)
  | fail (line : Nat) (msg : String) (cpu : CPU) (ram : Ram)
  | crash (msg : String) (cpu : CPU) (ram : Ram)
deriving DecidableEq, Repr

/-- `step(cpu, program, ram)`. -/
def step (cpu : CPU) (prog : Program) (ram : Ram) : StepRes :=
  if cpu.halted ∨ cpu.IP ≥ (prog.ast.length : Int) then
    StepRes.ok { cpu with halted := true } ram
  else if cpu.IP < 0 then
    -- `program.ast[cpu.IP]` is undefined and the destructuring throws
    -- outside the try block
    StepRes.crash tyErrMsg cpu ram
  else
    match prog.ast.get? cpu.IP.toNat with
    | none => StepRes.crash tyErrMsg cpu ram
    | some instruction =>
        match exec instruction.op instruction.operands cpu ram prog.labels with
        | ExecRes.next c r => StepRes.ok { c with IP := c.IP + 1 } r
        | ExecRes.jump c r => StepRes.ok c r
        | ExecRes.throwE m c r => StepRes.fail instruction.line m c r

/-- Result of `run`: the returned step count, or a propagated exception. -/
inductive RunRes where
  | done (cpu : CPU) (ram : Ram) (steps : Nat)
  | err (line : Nat) (msg : String) (cpu : CPU) (ram : Ram)
  | crashed (msg : String) (cpu : CPU) (ram : Ram)
deriving DecidableEq, Repr

/-- The `while (!cpu.halted && steps < maxSteps)` loop; `fuel` is
`maxSteps - steps` and `steps` the count so far. -/
def runAux (prog : Program) (bps : List Int) :
    Nat → CPU → Ram → Nat → RunRes
  | 0, cpu, ram, steps => RunRes.done cpu ram steps
  | fuel + 1, cpu, ram, steps =>
      if cpu.halted then RunRes.done cpu ram steps
      else if bps.contains cpu.IP then RunRes.done cpu ram steps
      else
        match step cpu prog ram with
        | StepRes.ok c r => runAux prog bps fuel c r (steps + 1)
        | StepRes.fail l m c r => RunRes.err l m c r
        | StepRes.crash m c r => RunRes.crashed m c r

/-- `run(cpu, program, ram, {maxSteps, breakpoints})` (the syscall hook has
no effect on CPU state or memory). -/
def run (cpu : CPU) (prog : Program) (ram : Ram) (bps : List Int)
    (maxSteps : Nat) : RunRes :=
  runAux prog bps maxSteps cpu ram 0

/-! ### The two-pass assembler

JavaScript string primitives are modelled over the character list of the
string (structural recursion, so that concrete assemblies evaluate). -/

def ofChars (cs : List Char) : String := String.mk cs

def jsStartsWith (s p : String) : Bool := p.data.isPrefixOf s.data

def jsEndsWith (s p : String) : Bool := p.data.isSuffixOf s.data

def jsContains (s : String) (c : Char) : Bool := s.data.contains c

def jsToUpper (s : String) : String := ofChars (s.data.map Char.toUpper)

def jsTrim (s : String) : String :=
  ofChars (((s.data.dropWhile Char.isWhitespace).reverse.dropWhile
    Char.isWhitespace).reverse)

def jsTake (s : String) (n : Nat) : String := ofChars (s.data.take n)

def jsDrop (s : String) (n : Nat) : String := ofChars (s.data.drop n)

def jsDropRight (s : String) (n : Nat) : String :=
  ofChars (s.data.take (s.data.length - n))

def jsLength (s : String) : Nat := s.data.length

/-- Split a character list at every occurrence of `sep` (single-character
`String.prototype.split`). -/
def splitCharsAux (sep : Char) : List Char → List Char → List (List Char)
  | [], acc => [acc.reverse]
  | c :: rest, acc =>
      if c = sep then acc.reverse :: splitCharsAux sep rest []
      else splitCharsAux sep rest (c :: acc)

def jsSplitOn (s : String) (sep : Char) : List String :=
  (splitCharsAux sep s.data []).map ofChars

def jsIntercalate (sep : String) : List String → String
  | [] => ""
  | [x] => x
  | x :: rest => x ++ sep ++ jsIntercalate sep rest

/-- `s.split(/\s+/)` on an already trimmed string: split on whitespace and
drop the empty fragments. -/
def splitWs (s : String) : List String :=
  ((splitCharsAux (Char.ofNat 32) (s.data.map
      (fun c => if c.isWhitespace then Char.ofNat 32 else c)) []).filter
    (fun t => t ≠ [])).map ofChars

def digitsVal : List Char → Nat → Nat
  | [], acc => acc
  | c :: rest, acc => digitsVal rest (acc * 10 + (c.toNat - 48))

/-- Decimal digit-string to `Nat` (`none` when empty or non-digit). -/
def decDigits? (s : String) : Option Nat :=
  if s.data ≠ [] ∧ s.data.all Char.isDigit then some (digitsVal s.data 0)
  else none

/-- `parseInt(s, 10)`: skip leading whitespace, optional sign, longest digit
prefix; `none` is NaN. -/
def jsParseInt (s : String) : Option Int :=
  let t := jsTrim s
  let signRest : Int × String :=
    if jsStartsWith t ("-") then (-1, jsDrop t 1)
    else if jsStartsWith t ("+") then (1, jsDrop t 1)
    else (1, t)
  let digits := ofChars (signRest.2.data.takeWhile Char.isDigit)
  match decDigits? digits with
  | none => none
  | some n => some (signRest.1 * Int.ofNat n)

def REGISTERS : List (String × Int) :=
  [("R0", 0), ("R1", 1), ("R2", 2), ("R3", 3),
   ("R4", 4), ("R5", 5), ("R6", 6), ("R7", 7),
   ("SP", -1), ("BP", -2)]

def regLookup (s : String) : Option Int :=
  (REGISTERS.find? (fun p => p.1 = s)).map (fun p => p.2)

/-- The regex `^(R[0-7]|SP|BP)\s*([+-])\s*(\d+)$/i` for `[Rk+imm]`
addressing: returns the upper-cased register name and the signed offset. -/
def parseRegOffset (inner : String) : Option (String × Int) :=
  let u := jsToUpper inner
  let reg := jsTake u 2
  if REGISTERS.any (fun p => p.1 = reg) then
    let rest1 := ofChars ((jsDrop u 2).data.dropWhile Char.isWhitespace)
    let signC := jsTake rest1 1
    if signC = "+" ∨ signC = "-" then
      let rest2 := ofChars ((jsDrop rest1 1).data.dropWhile Char.isWhitespace)
      match decDigits? rest2 with
      | some n => some (reg, (if signC = "+" then 1 else -1) * Int.ofNat n)
      | none => none
    else none
  else none

/-- `parseOperand(token, labels, lineNum)` (the label table is accepted but,
as in the source, unused). -/
def parseOperand (token : String) (labels : Labels) (lineNum : Nat) :
    Except (Nat × String) Operand :=
  let token := if jsEndsWith token (",") then jsDropRight token 1 else token
  if jsStartsWith token ("#") then
    match jsParseInt (jsDrop token 1) with
    | none => Except.error (lineNum, "Invalid immediate value: " ++ token)
    | some v => Except.ok ⟨OpType.imm, OpVal.num v, none⟩
  else if jsStartsWith token ("[") ∧ jsEndsWith token ("]") then
    let inner := jsDropRight (jsDrop token 1) 1
    match parseRegOffset inner with
    | some (reg, offset) =>
        match regLookup reg with
        | none => Except.error (lineNum, "Invalid register: " ++ reg)
        | some r => Except.ok ⟨OpType.mem, OpVal.num r, some offset⟩
    | none =>
        match regLookup (jsToUpper inner) with
        | some r => Except.ok ⟨OpType.mem, OpVal.num r, none⟩
        | none =>
            match jsParseInt inner with
            | some addr => Except.ok ⟨OpType.mem, OpVal.num addr, none⟩
            | none => Except.ok ⟨OpType.mem, OpVal.str inner, none⟩
  else
    match regLookup (jsToUpper token) with
    | some r => Except.ok ⟨OpType.reg, OpVal.num r, none⟩
    | none =>
        match jsParseInt token with
        | some n => Except.ok ⟨OpType.imm, OpVal.num n, none⟩
        | none => Except.ok ⟨OpType.label, OpVal.str token, none⟩

structure Pass1State where
  ast : List Instruction
  labels : Labels
  dataSection : List Nat
  currentAddress : Int
  inDataSection : Bool
  dataPtr : Nat
  textStart : Int
deriving DecidableEq, Repr

def pass1Init : Pass1State :=
  { ast := [], labels := [], dataSection := List.replicate 1024 0,
    currentAddress := 0, inDataSection := false, dataPtr := 0, textStart := 0 }

/-- Emit one 32-bit value as four little-endian bytes
(`val & 0xFF`, `(val >> 8) & 0xFF`, ...); like `Uint8Array`, a `List.set`
past the end is silently dropped while the pointer still advances. -/
def emitWord (ds : List Nat) (ptr : Nat) (val : Int) : List Nat × Nat :=
  let u := (toUInt32 val).toNat
  (((((ds.set ptr (u % 256)).set (ptr + 1) (u / 256 % 256)).set
      (ptr + 2) (u / 65536 % 256)).set (ptr + 3) (u / 16777216 % 256)),
   ptr + 4)

def emitWords (ds : List Nat) (ptr : Nat) (vals : List (Option Int))
    (lineNum : Nat) : Except (Nat × String) (List Nat × Nat) :=
  match vals with
  | [] => Except.ok (ds, ptr)
  | none :: _ => Except.error (lineNum, "Invalid .WORD value")
  | some v :: rest =>
      let e := emitWord ds ptr v
      emitWords e.1 e.2 rest lineNum

def emitBytes (ds : List Nat) (ptr : Nat) (vals : List (Option Int))
    (lineNum : Nat) : Except (Nat × String) (List Nat × Nat) :=
  match vals with
  | [] => Except.ok (ds, ptr)
  | none :: _ => Except.error (lineNum, "Invalid .BYTE value")
  | some v :: rest =>
      emitBytes (ds.set ptr ((toUInt32 v).toNat % 256)) (ptr + 1) rest lineNum

/-- `directive.slice(1).join(' ').split(',').map(v => parseInt(v.trim(), 10))`. -/
def directiveVals (directive : List String) : List (Option Int) :=
  (jsSplitOn (jsIntercalate (" ") directive.tail) (',')).map
    (fun v => jsParseInt (jsTrim v))

/-- Pass 1 treatment of one source line (0-based index `i`). -/
def pass1Line (st : Pass1State) (line : String) (i : Nat) :
    Except (Nat × String) Pass1State :=
  let trimmed := jsTrim line
  if trimmed = "" ∨ jsStartsWith trimmed (";") ∨ jsStartsWith trimmed ("//") then
    Except.ok st
  else
    -- label-definition / instruction handling, reached directly for lines not
    -- starting with a dot and by fall-through for unrecognized directives
    let handleRest : Except (Nat × String) Pass1State :=
      if jsContains trimmed (':') then
        let parts := jsSplitOn trimmed (':')
        let labelName := jsTrim (parts.headD "")
        let st1 :=
          if st.inDataSection then
            { st with labels := setLabel st.labels labelName (Int.ofNat st.dataPtr) }
          else
            { st with labels := setLabel st.labels labelName st.currentAddress }
        let afterColon := jsTrim (jsIntercalate (":") parts.tail)
        if jsStartsWith afterColon (".") then
          let directive := splitWs afterColon
          let cmd := jsToUpper (directive.headD "")
          if cmd = ".WORD" then
            match emitWords st1.dataSection st1.dataPtr (directiveVals directive) (i + 1) with
            | Except.error e => Except.error e
            | Except.ok (ds, p) => Except.ok { st1 with dataSection := ds, dataPtr := p }
          else Except.ok st1
        else Except.ok st1
      else if ¬st.inDataSection then
        let tokens := splitWs trimmed
        let op := jsToUpper (tokens.headD "")
        Except.ok { st with
          ast := st.ast ++ [⟨op, [], i + 1, trimmed⟩],
          currentAddress := st.currentAddress + 1 }
      else Except.ok st
    if jsStartsWith trimmed (".") then
      let directive := splitWs trimmed
      let cmd := jsToUpper (directive.headD "")
      if cmd = ".DATA" then Except.ok { st with inDataSection := true }
      else if cmd = ".TEXT" then
        Except.ok { st with inDataSection := false, textStart := st.currentAddress }
      else if cmd = ".ORG" then
        if directive.length < 2 then Except.error (i + 1, ".ORG requires address")
        else
          match jsParseInt (directive.getD 1 "") with
          | none => Except.error (i + 1, "Invalid .ORG address")
          | some a => Except.ok { st with currentAddress := a }
      else if cmd = ".WORD" then
        if st.inDataSection then
          match emitWords st.dataSection st.dataPtr (directiveVals directive) (i + 1) with
          | Except.error e => Except.error e
          | Except.ok (ds, p) => Except.ok { st with dataSection := ds, dataPtr := p }
        else Except.ok st
      else if cmd = ".BYTE" then
        if st.inDataSection then
          match emitBytes st.dataSection st.dataPtr (directiveVals directive) (i + 1) with
          | Except.error e => Except.error e
          | Except.ok (ds, p) => Except.ok { st with dataSection := ds, dataPtr := p }
        else Except.ok st
      else handleRest
    else handleRest

def pass1 : List String → Nat → Pass1State → Except (Nat × String) Pass1State
  | [], _, st => Except.ok st
  | l :: rest, i, st =>
      match pass1Line st l i with
      | Except.error e => Except.error e
      | Except.ok st2 => pass1 rest (i + 1) st2

def parseOperands (tokens : List String) (labels : Labels) (lineNum : Nat) :
    Except (Nat × String) (List Operand) :=
  match tokens with
  | [] => Except.ok []
  | t :: rest =>
      match parseOperand t labels lineNum with
      | Except.error e => Except.error e
      | Except.ok o =>
          match parseOperands rest labels lineNum with
          | Except.error e => Except.error e
          | Except.ok os => Except.ok (o :: os)

inductive P2Res where
  | ok (ast : List Instruction)
  | err (line : Nat) (msg : String)
  | crash
deriving DecidableEq, Repr

/-- Pass 2: re-scan, skipping blank/comment lines, lines starting with a dot
and lines ending with a colon; parse the remaining tokens of every other line
as operands and assign them to `ast[astIndex++]` (an out-of-range index is the
uncaught TypeError of `ast[astIndex].operands = ...`). -/
def pass2 (labels : Labels) : List String → Nat → List Instruction → Nat → P2Res
  | [], _, ast, _ => P2Res.ok ast
  | line :: rest, i, ast, astIndex =>
      let trimmed := jsTrim line
      if trimmed = "" ∨ jsStartsWith trimmed (";") ∨ jsStartsWith trimmed ("//") ∨
         jsStartsWith trimmed (".") ∨ jsEndsWith trimmed (":") then
        pass2 labels rest (i + 1) ast astIndex
      else
        let tokens := splitWs trimmed
        match parseOperands tokens.tail labels (i + 1) with
        | Except.error (l, m) => P2Res.err l m
        | Except.ok operands =>
            match ast.get? astIndex with
            | none => P2Res.crash
            | some instr =>
                pass2 labels rest (i + 1)
                  (ast.set astIndex { instr with operands := operands })
                  (astIndex + 1)

/-- Result of `assemble`: a program, a thrown `AsmError`, or the uncaught
TypeError described at `pass2`. -/
inductive AsmOut where
  | ok (p : Program)
  | err (line : Nat) (msg : String)
  | crash (msg : String)
deriving DecidableEq, Repr

def tyErrSetMsg : String := "TypeError: cannot set properties of undefined"

def AsmOut.isOk : AsmOut → Bool
  | AsmOut.ok _ => true
  | _ => false

def AsmOut.astOf : AsmOut → List Instruction
  | AsmOut.ok p => p.ast
  | _ => []

/-- `assemble(source)`. -/
def assemble (source : String) : AsmOut :=
  let lines := jsSplitOn source (Char.ofNat 10)
  match pass1 lines 0 pass1Init with
  | Except.error (l, m) => AsmOut.err l m
  | Except.ok st =>
      match pass2 st.labels lines 0 st.ast 0 with
      | P2Res.err l m => AsmOut.err l m
      | P2Res.crash => AsmOut.crash tyErrSetMsg
      | P2Res.ok ast2 =>
          AsmOut.ok { lines := lines, ast := ast2, labels := st.labels,
                      dataSection := st.dataSection, textStart := st.textStart }

/-! ### Concrete fixtures -/

/-- A fresh 4096-byte RAM, all zero (`createRAM()`). -/
def ram0 : Ram := List.replicate 4096 0

def regop (i : Int) : Operand := ⟨OpType.reg, OpVal.num i, none⟩

def immop (n : Int) : Operand := ⟨OpType.imm, OpVal.num n, none⟩

def memop (a : Int) : Operand := ⟨OpType.mem, OpVal.num a, none⟩

/-- A program consisting of just the given instruction list. -/
def mkProg (is : List Instruction) : Program :=
  { lines := [], ast := is, labels := [], dataSection := [], textStart := 0 }

/-! ### C1 : pass-2 line skipping -/

/-- A source accepted by `assemble` containing a data-section line
`name: .WORD 1, 2, 3` (and an unrecognized directive that pass 1 turns into
an instruction skeleton while pass 2 skips it). -/
def c1src : String := ".DATA\nname: .WORD 1, 2, 3\n.TEXT\n.FOO\nMOV R0, #1"

/-- A minimal source in the style of the shipped sample programs
(`public/asm/fibonacci.asm` and the factorial sample): a labelled
data-emission line followed by text-section instructions. -/
def c1sampleSrc : String := ".DATA\nn: .WORD 10\n.TEXT\nMOV R0, #1"

/-- C1: FALSIFIED ON THE CODE.  Pass 2 skips only lines that *end* with a
colon while pass 1 treats any line *containing* a colon as a label line, and
pass 1 turns unrecognized directives into instruction skeletons that pass 2
then skips.  On the accepted source `c1src` the data-section line
`name: .WORD 1, 2, 3` is parsed as an instruction line by pass 2 and its
tokens become the operand list of the first instruction skeleton, so that
skeleton does not receive the operands of its own source line.  On the
shipped-sample shaped source, `assemble` crashes with an uncaught TypeError
instead of accepting it. -/
theorem c1_pass2_misassigns_data_line_operands :
    (assemble c1src).isOk = true ∧
    ((assemble c1src).astOf.getD 0 default).op = ".FOO" ∧
    ((assemble c1src).astOf.getD 0 default).source = ".FOO" ∧
    ((assemble c1src).astOf.getD 0 default).operands =
      [⟨OpType.label, OpVal.str ".WORD", none⟩, ⟨OpType.imm, OpVal.num 1, none⟩,
       ⟨OpType.imm, OpVal.num 2, none⟩, ⟨OpType.imm, OpVal.num 3, none⟩] ∧
    assemble c1sampleSrc = AsmOut.crash tyErrSetMsg := by
  decide

/-! ### C2 : logic opcodes -/

/-- C2: FALSIFIED ON THE CODE.  The `switch` in `step` has no case for any of
AND, OR, XOR, NOT, SHL, SHR: each of them falls into the default branch and
`step` fails with an unknown-instruction `AsmError`, leaving the state
untouched. -/
theorem c2_logic_opcodes_unknown_instruction :
    step reset (mkProg [⟨"AND", [regop 0, immop 255], 1, "AND R0, #255"⟩]) ram0 =
      StepRes.fail 1 ("Unknown instruction: AND") reset ram0 ∧
    step reset (mkProg [⟨"OR", [regop 0, immop 1], 1, "OR R0, #1"⟩]) ram0 =
      StepRes.fail 1 ("Unknown instruction: OR") reset ram0 ∧
    step reset (mkProg [⟨"XOR", [regop 0, regop 0], 1, "XOR R0, R0"⟩]) ram0 =
      StepRes.fail 1 ("Unknown instruction: XOR") reset ram0 ∧
    step reset (mkProg [⟨"NOT", [regop 0], 1, "NOT R0"⟩]) ram0 =
      StepRes.fail 1 ("Unknown instruction: NOT") reset ram0 ∧
    step reset (mkProg [⟨"SHL", [regop 0, immop 1], 1, "SHL R0, #1"⟩]) ram0 =
      StepRes.fail 1 ("Unknown instruction: SHL") reset ram0 ∧
    step reset (mkProg [⟨"SHR", [regop 0, immop 1], 1, "SHR R0, #1"⟩]) ram0 =
      StepRes.fail 1 ("Unknown instruction: SHR") reset ram0 :=
  ⟨rfl, rfl, rfl, rfl, rfl, rfl⟩

/-! ### C3 : the `STORE [4090], R0` scenario -/

/-- CPU with R0 = 1, as set up before the C3 store. -/
def cpuC3 : CPU := { reset with R := [1, 0, 0, 0, 0, 0, 0, 0] }

/-- C3 counterexample: `STORE [4090], R0` on the 4096-byte memory does NOT
fail the bounds check (4090 + 4 = 4094 ≤ 4096): the step succeeds and the
memory IS changed (byte 4090 receives the low byte of R0 = 1). -/
theorem c3_counterexample_store_4090_succeeds :
    step cpuC3 (mkProg [⟨"STORE", [memop 4090, regop 0], 1, "STORE [4090], R0"⟩]) ram0 =
      StepRes.ok { cpuC3 with IP := 1 } (write32 ram0 4090 1) ∧
    byteAt (write32 ram0 4090 1) 4090 = 1 ∧
    byteAt ram0 4090 = 0 :=
  ⟨rfl, by decide, by decide⟩

/-- C3 amended: a word store at 4090 is in bounds and succeeds, while the
first out-of-bounds word-store address is 4093 (4093 + 4 > 4096): there
`step` fails with the out-of-bounds error and the memory and CPU are left
unchanged. -/
theorem c3_amended_store_bounds :
    step cpuC3 (mkProg [⟨"STORE", [memop 4093, regop 0], 1, "STORE [4093], R0"⟩]) ram0 =
      StepRes.fail 1 (storeOobMsg 4093) cpuC3 ram0 ∧
    step cpuC3 (mkProg [⟨"STORE", [memop 4090, regop 0], 1, "STORE [4090], R0"⟩]) ram0 =
      StepRes.ok { cpuC3 with IP := 1 } (write32 ram0 4090 1) :=
  ⟨rfl, rfl⟩

/-! ### C4 : word-access bounds -/

/-- The effective address of a memory operand: the same computation performed
by the `mem` branch of `resolveOperand` and by the STORE destination triad.
`none` for an undefined label and for negative register codes the parser
cannot produce. -/
def memEffAddr (operand : Operand) (cpu : CPU) (labels : Labels) : Option Int :=
  if operand.type = OpType.mem then
    match operand.value with
    | OpVal.str s => lookupLabel labels s
    | OpVal.num v =>
        if v < 0 then
          if v = -1 ∨ v = -2 then
            some ((if v = -1 then cpu.SP else cpu.BP) + operand.offset.getD 0)
          else none
        else some v
  else none

theorem resolveOperand_mem_eq (operand : Operand) (cpu : CPU) (ram : Ram)
    (labels : Labels) (a : Int) (h : memEffAddr operand cpu labels = some a) :
    resolveOperand operand cpu ram labels =
      if a < 0 ∨ a ≥ RAM_SIZE - 3 then Except.error (oobMsg a)
      else Except.ok (read32 ram a.toNat) := by
  unfold memEffAddr at h
  by_cases htype : operand.type = OpType.mem
  · simp only [htype, if_true] at h
    unfold resolveOperand
    simp only [htype]
    cases hv : operand.value with
    | str s =>
        simp only [hv] at h
        simp [h]
    | num v =>
        simp only [hv] at h
        by_cases hneg : v < 0
        · simp only [hneg, if_true] at h
          by_cases h12 : v = -1 ∨ v = -2
          · simp only [h12, if_true, Option.some.injEq] at h
            rcases h12 with h1 | h2
            · subst h1; simp_all
            · subst h2; simp_all
          · simp [h12] at h
        · simp only [hneg, if_false, Option.some.injEq] at h
          subst h
          simp [hneg]
  · simp [htype] at h

/-- Reduction of `step` to the dispatched case body when the instruction
pointer is in range and the CPU is not halted. -/
theorem step_eq_exec (cpu : CPU) (prog : Program) (ram : Ram)
    (instr : Instruction) (h1 : cpu.halted = false) (h2 : 0 ≤ cpu.IP)
    (h3 : prog.ast.get? cpu.IP.toNat = some instr) :
    step cpu prog ram =
      match exec instr.op instr.operands cpu ram prog.labels with
      | ExecRes.next c r => StepRes.ok { c with IP := c.IP + 1 } r
      | ExecRes.jump c r => StepRes.ok c r
      | ExecRes.throwE m c r => StepRes.fail instr.line m c r := by
  have hlen : cpu.IP.toNat < prog.ast.length := (List.get?_eq_some.mp h3).1
  have hcond : ¬(cpu.halted = true ∨ cpu.IP ≥ (prog.ast.length : Int)) := by
    rintro (hh | hge)
    · rw [h1] at hh
      exact Bool.noConfusion hh
    · omega
  unfold step
  rw [if_neg hcond, if_neg (by omega), h3]

theorem storeAddr_eq_of_memEffAddr (dst : Operand) (cpu : CPU)
    (labels : Labels) (a : Int) (hdst : dst.type = OpType.mem)
    (ha : memEffAddr dst cpu labels = some a) :
    storeAddr dst cpu labels = a := by
  unfold memEffAddr at ha
  simp only [hdst, if_true] at ha
  unfold storeAddr
  cases hv : dst.value with
  | str s =>
      simp only [hv] at ha
      simp [ha]
  | num v' =>
      simp only [hv] at ha
      by_cases hneg : v' < 0
      · simp only [hneg, if_true] at ha
        by_cases h12 : v' = -1 ∨ v' = -2
        · simp only [h12, if_true, Option.some.injEq] at ha
          rcases h12 with h1 | h2
          · subst h1; simp_all
          · subst h2; simp_all
        · simp [h12] at ha
      · simp only [hneg, if_false, Option.some.injEq] at ha
        subst ha
        simp [hneg]

theorem exec_store_eq (dst src : Operand) (cpu : CPU) (ram : Ram)
    (labels : Labels) (v a : Int) (hdst : dst.type = OpType.mem)
    (ha : memEffAddr dst cpu labels = some a)
    (hsrc : resolveOperand src cpu ram labels = Except.ok v) :
    exec ("STORE") [dst, src] cpu ram labels =
      if a < 0 ∨ a ≥ RAM_SIZE - 3 then ExecRes.throwE (storeOobMsg a) cpu ram
      else ExecRes.next cpu (write32 ram a.toNat v) := by
  have haddr := storeAddr_eq_of_memEffAddr dst cpu labels a hdst ha
  unfold exec
  simp only [List.length_cons, List.length_nil, List.getD_cons_zero,
    List.getD_cons_succ]
  simp only [hsrc]
  simp only [hdst, haddr]
  simp

theorem length_write32 (ram : Ram) (a : Nat) (v : Int) :
    (write32 ram a v).length = ram.length := by
  simp [write32]

theorem byteAt_write32_outside (ram : Ram) (a : Nat) (v : Int) (i : Nat)
    (h : i < a ∨ a + 3 < i) :
    byteAt (write32 ram a v) i = byteAt ram i := by
  unfold write32 byteAt
  rw [List.get?_set_ne _ _ (by omega), List.get?_set_ne _ _ (by omega),
    List.get?_set_ne _ _ (by omega), List.get?_set_ne _ _ (by omega)]

/-- C4: for word-sized memory accesses (word read of a memory operand via
`resolveOperand`, word write via STORE) at effective address `a`, the access
raises the out-of-bounds error exactly when `a < 0` or `a + 4 > 4096`; an
in-bounds read returns the word at exactly `a`, and an in-bounds store writes
exactly the four bytes at `a` without changing the buffer length or any other
byte. -/
theorem c4_word_access_bounds :
    (∀ (operand : Operand) (cpu : CPU) (ram : Ram) (labels : Labels) (a : Int),
      memEffAddr operand cpu labels = some a →
      ((resolveOperand operand cpu ram labels = Except.error (oobMsg a) ↔
          a < 0 ∨ a + 4 > 4096) ∧
       (¬(a < 0 ∨ a + 4 > 4096) →
          resolveOperand operand cpu ram labels = Except.ok (read32 ram a.toNat)))) ∧
    (∀ (cpu : CPU) (prog : Program) (ram : Ram) (instr : Instruction)
       (dst src : Operand) (v a : Int),
      cpu.halted = false → 0 ≤ cpu.IP →
      prog.ast.get? cpu.IP.toNat = some instr →
      instr.op = "STORE" → instr.operands = [dst, src] →
      dst.type = OpType.mem →
      memEffAddr dst cpu prog.labels = some a →
      resolveOperand src cpu ram prog.labels = Except.ok v →
      ((step cpu prog ram = StepRes.fail instr.line (storeOobMsg a) cpu ram ↔
          a < 0 ∨ a + 4 > 4096) ∧
       (¬(a < 0 ∨ a + 4 > 4096) →
          step cpu prog ram =
            StepRes.ok { cpu with IP := cpu.IP + 1 } (write32 ram a.toNat v) ∧
          (write32 ram a.toNat v).length = ram.length ∧
          ∀ i : Nat, i < a.toNat ∨ a.toNat + 3 < i →
            byteAt (write32 ram a.toNat v) i = byteAt ram i))) := by
  constructor
  · intro operand cpu ram labels a ha
    have hres := resolveOperand_mem_eq operand cpu ram labels a ha
    have hbnd : (a < 0 ∨ a ≥ RAM_SIZE - 3) ↔ (a < 0 ∨ a + 4 > 4096) := by
      unfold RAM_SIZE; omega
    constructor
    · constructor
      · intro herr
        by_contra hin
        rw [hres, if_neg (fun hc => hin (hbnd.mp hc))] at herr
        exact Except.noConfusion herr
      · intro hoob
        rw [hres, if_pos (hbnd.mpr hoob)]
    · intro hin
      rw [hres, if_neg (fun hc => hin (hbnd.mp hc))]
  · intro cpu prog ram instr dst src v a h1 h2 h3 hop hops hdst ha hsrc
    have hstep := step_eq_exec cpu prog ram instr h1 h2 h3
    rw [hop, hops] at hstep
    rw [exec_store_eq dst src cpu ram prog.labels v a hdst ha hsrc] at hstep
    have hbnd : (a < 0 ∨ a ≥ RAM_SIZE - 3) ↔ (a < 0 ∨ a + 4 > 4096) := by
      unfold RAM_SIZE; omega
    constructor
    · constructor
      · intro herr
        by_contra hin
        rw [if_neg (fun hc => hin (hbnd.mp hc))] at hstep
        rw [hstep] at herr
        exact StepRes.noConfusion herr
      · intro hoob
        rw [if_pos (hbnd.mpr hoob)] at hstep
        exact hstep
    · intro hin
      rw [if_neg (fun hc => hin (hbnd.mp hc))] at hstep
      exact ⟨hstep, length_write32 ram a.toNat v,
        fun i hi => byteAt_write32_outside ram a.toNat v i hi⟩

/-- C4 witness: the word read at address 4092 of the fresh RAM is in bounds
(4092 + 4 = 4096) and returns the word at exactly 4092, while the read at
4093 raises the out-of-bounds error. -/
theorem c4_witness :
    resolveOperand (memop 4092) reset ram0 [] =
      Except.ok (read32 ram0 (Int.toNat 4092)) ∧
    resolveOperand (memop 4093) reset ram0 [] =
      Except.error (oobMsg 4093) :=
  ⟨(c4_word_access_bounds.1 (memop 4092) reset ram0 [] 4092 (by decide)).2
      (by decide),
   ((c4_word_access_bounds.1 (memop 4093) reset ram0 [] 4093 (by decide)).1).mpr
      (by decide)⟩

/-! ### Projection lemmas for the state helpers -/

theorem regSet_F (cpu : CPU) (i v : Int) : (regSet cpu i v).F = cpu.F := by
  unfold regSet
  split
  · rfl
  · split <;> rfl

theorem regSet_IP (cpu : CPU) (i v : Int) : (regSet cpu i v).IP = cpu.IP := by
  unfold regSet
  split
  · rfl
  · split <;> rfl

theorem regSet_halted (cpu : CPU) (i v : Int) :
    (regSet cpu i v).halted = cpu.halted := by
  unfold regSet
  split
  · rfl
  · split <;> rfl

theorem setFlags_R (cpu : CPU) (result : Int) (tag : FlagOp) :
    (setFlags cpu result tag).R = cpu.R := by
  unfold setFlags
  split <;> rfl

theorem setFlags_SP (cpu : CPU) (result : Int) (tag : FlagOp) :
    (setFlags cpu result tag).SP = cpu.SP := by
  unfold setFlags
  split <;> rfl

theorem setFlags_BP (cpu : CPU) (result : Int) (tag : FlagOp) :
    (setFlags cpu result tag).BP = cpu.BP := by
  unfold setFlags
  split <;> rfl

theorem setFlags_IP (cpu : CPU) (result : Int) (tag : FlagOp) :
    (setFlags cpu result tag).IP = cpu.IP := by
  unfold setFlags
  split <;> rfl

theorem setFlags_halted (cpu : CPU) (result : Int) (tag : FlagOp) :
    (setFlags cpu result tag).halted = cpu.halted := by
  unfold setFlags
  split <;> rfl

theorem setFlags_F_addsub (cpu : CPU) (result : Int) (tag : FlagOp)
    (h : tag = FlagOp.add ∨ tag = FlagOp.sub) :
    (setFlags cpu result tag).F =
      ⟨decide (result = 0), decide (result < 0), decide (2147483647 < |result|),
       decide (2147483647 < result ∨ result < -2147483648)⟩ := by
  unfold setFlags
  rw [if_pos h]

theorem setFlags_F_other (cpu : CPU) (result : Int) (tag : FlagOp)
    (h : ¬(tag = FlagOp.add ∨ tag = FlagOp.sub)) :
    (setFlags cpu result tag).F =
      { cpu.F with ZF := decide (result = 0), NF := decide (result < 0) } := by
  unfold setFlags
  rw [if_neg h]

/-! ### Reduction lemmas for the dispatched opcode bodies -/

theorem arithCase_eq (opName : String) (d : Int) (o : Option Int)
    (srcOp : Operand) (cpu : CPU) (ram : Ram) (labels : Labels) (src : Int)
    (f : Int → Int → Int) (tag : FlagOp)
    (hsrc : resolveOperand srcOp cpu ram labels = Except.ok src) :
    arithCase opName [⟨OpType.reg, OpVal.num d, o⟩, srcOp] cpu ram labels f tag =
      ExecRes.next
        (setFlags (regSet cpu d (f (regGet cpu d) src)) (f (regGet cpu d) src) tag)
        ram := by
  unfold arithCase
  simp [List.getD_cons_zero, List.getD_cons_succ, hsrc, asNum, regGet]

theorem exec_add_eq (d : Int) (o : Option Int) (srcOp : Operand) (cpu : CPU)
    (ram : Ram) (labels : Labels) (src : Int)
    (hsrc : resolveOperand srcOp cpu ram labels = Except.ok src) :
    exec ("ADD") [⟨OpType.reg, OpVal.num d, o⟩, srcOp] cpu ram labels =
      ExecRes.next
        (setFlags (regSet cpu d (regGet cpu d + src)) (regGet cpu d + src)
          FlagOp.add) ram :=
  arithCase_eq ("ADD") d o srcOp cpu ram labels src (fun a b => a + b)
    FlagOp.add hsrc

theorem exec_sub_eq (d : Int) (o : Option Int) (srcOp : Operand) (cpu : CPU)
    (ram : Ram) (labels : Labels) (src : Int)
    (hsrc : resolveOperand srcOp cpu ram labels = Except.ok src) :
    exec ("SUB") [⟨OpType.reg, OpVal.num d, o⟩, srcOp] cpu ram labels =
      ExecRes.next
        (setFlags (regSet cpu d (regGet cpu d - src)) (regGet cpu d - src)
          FlagOp.sub) ram :=
  arithCase_eq ("SUB") d o srcOp cpu ram labels src (fun a b => a - b)
    FlagOp.sub hsrc

theorem exec_mul_eq (d : Int) (o : Option Int) (srcOp : Operand) (cpu : CPU)
    (ram : Ram) (labels : Labels) (src : Int)
    (hsrc : resolveOperand srcOp cpu ram labels = Except.ok src) :
    exec ("MUL") [⟨OpType.reg, OpVal.num d, o⟩, srcOp] cpu ram labels =
      ExecRes.next
        (setFlags (regSet cpu d (regGet cpu d * src)) (regGet cpu d * src)
          FlagOp.mul) ram :=
  arithCase_eq ("MUL") d o srcOp cpu ram labels src (fun a b => a * b)
    FlagOp.mul hsrc

theorem exec_div_eq (d : Int) (o : Option Int) (srcOp : Operand) (cpu : CPU)
    (ram : Ram) (labels : Labels) (src : Int)
    (hsrc : resolveOperand srcOp cpu ram labels = Except.ok src)
    (hnz : src ≠ 0) :
    exec ("DIV") [⟨OpType.reg, OpVal.num d, o⟩, srcOp] cpu ram labels =
      ExecRes.next
        (setFlags (regSet cpu d (Int.fdiv (regGet cpu d) src))
          (Int.fdiv (regGet cpu d) src) FlagOp.div) ram := by
  unfold exec
  simp [List.getD_cons_zero, List.getD_cons_succ, hsrc, hnz, asNum, regGet]

theorem exec_div_zero_eq (o0 srcOp : Operand) (cpu : CPU) (ram : Ram)
    (labels : Labels)
    (hsrc : resolveOperand srcOp cpu ram labels = Except.ok 0) :
    exec ("DIV") [o0, srcOp] cpu ram labels =
      ExecRes.throwE ("Division by zero")
        { cpu with F := { cpu.F with CF := true } } ram := by
  unfold exec
  simp [List.getD_cons_zero, List.getD_cons_succ, hsrc]

theorem exec_cmp_eq (o0 o1 : Operand) (cpu : CPU) (ram : Ram)
    (labels : Labels) (a b : Int)
    (h0 : resolveOperand o0 cpu ram labels = Except.ok a)
    (h1 : resolveOperand o1 cpu ram labels = Except.ok b) :
    exec ("CMP") [o0, o1] cpu ram labels =
      ExecRes.next (setFlags cpu (a - b) FlagOp.cmp) ram := by
  unfold exec
  simp [List.getD_cons_zero, List.getD_cons_succ, h0, h1]

theorem exec_mov_eq (d : Int) (o : Option Int) (srcOp : Operand) (cpu : CPU)
    (ram : Ram) (labels : Labels) (src : Int)
    (hlab : srcOp.type ≠ OpType.label)
    (hsrc : resolveOperand srcOp cpu ram labels = Except.ok src) :
    exec ("MOV") [⟨OpType.reg, OpVal.num d, o⟩, srcOp] cpu ram labels =
      ExecRes.next (regSet cpu d src) ram := by
  have hm : movSrc srcOp cpu ram labels = Except.ok src := by
    unfold movSrc
    rw [if_neg hlab]
    exact hsrc
  unfold exec
  simp [List.getD_cons_zero, List.getD_cons_succ, hm, asNum]

theorem exec_inc_eq (d : Int) (o : Option Int) (cpu : CPU) (ram : Ram)
    (labels : Labels) :
    exec ("INC") [⟨OpType.reg, OpVal.num d, o⟩] cpu ram labels =
      ExecRes.next
        (setFlags (regSet cpu d (regGet cpu d + 1)) (regGet cpu d + 1)
          FlagOp.add) ram := by
  unfold exec
  simp [List.getD_cons_zero, asNum, regGet]

theorem exec_dec_eq (d : Int) (o : Option Int) (cpu : CPU) (ram : Ram)
    (labels : Labels) :
    exec ("DEC") [⟨OpType.reg, OpVal.num d, o⟩] cpu ram labels =
      ExecRes.next
        (setFlags (regSet cpu d (regGet cpu d - 1)) (regGet cpu d - 1)
          FlagOp.sub) ram := by
  unfold exec
  simp [List.getD_cons_zero, asNum, regGet]

theorem step_eq_of_next (cpu : CPU) (prog : Program) (ram : Ram)
    (instr : Instruction) (c : CPU) (r : Ram) (h1 : cpu.halted = false)
    (h2 : 0 ≤ cpu.IP) (h3 : prog.ast.get? cpu.IP.toNat = some instr)
    (he : exec instr.op instr.operands cpu ram prog.labels = ExecRes.next c r) :
    step cpu prog ram = StepRes.ok { c with IP := c.IP + 1 } r := by
  rw [step_eq_exec cpu prog ram instr h1 h2 h3, he]

theorem step_eq_of_jump (cpu : CPU) (prog : Program) (ram : Ram)
    (instr : Instruction) (c : CPU) (r : Ram) (h1 : cpu.halted = false)
    (h2 : 0 ≤ cpu.IP) (h3 : prog.ast.get? cpu.IP.toNat = some instr)
    (he : exec instr.op instr.operands cpu ram prog.labels = ExecRes.jump c r) :
    step cpu prog ram = StepRes.ok c r := by
  rw [step_eq_exec cpu prog ram instr h1 h2 h3, he]

theorem step_eq_of_throw (cpu : CPU) (prog : Program) (ram : Ram)
    (instr : Instruction) (c : CPU) (r : Ram) (m : String)
    (h1 : cpu.halted = false) (h2 : 0 ≤ cpu.IP)
    (h3 : prog.ast.get? cpu.IP.toNat = some instr)
    (he : exec instr.op instr.operands cpu ram prog.labels = ExecRes.throwE m c r) :
    step cpu prog ram = StepRes.fail instr.line m c r := by
  rw [step_eq_exec cpu prog ram instr h1 h2 h3, he]

/-! ### C5 : carry/overflow flag semantics -/

/-- CPU with R0 = 65536 for the MUL-overflow counterexample. -/
def cpuC5 : CPU := { reset with R := [65536, 0, 0, 0, 0, 0, 0, 0] }

/-- C5 counterexample: `MUL R0, R0` with R0 = 65536 has mathematically exact
result 65536 * 65536 = 2^32, which does not fit the signed 32-bit range, yet
after the step both the carry and the overflow flag are false (`setFlags`
only recomputes CF/OF for the `add`/`sub` tags, never for `mul`). -/
theorem c5_counterexample_mul_flags :
    (2147483647 : Int) < 65536 * 65536 ∧
    step cpuC5 (mkProg [⟨"MUL", [regop 0, regop 0], 1, "MUL R0, R0"⟩]) ram0 =
      StepRes.ok { reset with IP := 1 } ram0 ∧
    ({ reset with IP := 1 } : CPU).F.CF = false ∧
    ({ reset with IP := 1 } : CPU).F.OF = false :=
  ⟨by decide, rfl, rfl, rfl⟩

/-- C5 amended: after ADD/SUB/INC/DEC the carry flag is set exactly when the
absolute value of the exact result exceeds 2^31 - 1 (so also at the in-range
result -2^31) and the overflow flag exactly when the exact result lies outside
[-2^31, 2^31 - 1]; MUL, DIV and CMP recompute only ZF/NF and leave the carry
and overflow flags unchanged (division by zero sets the carry flag before
failing); a register-destination MOV leaves all flags unchanged. -/
theorem c5_amended_flag_semantics :
    (∀ (cpu : CPU) (prog : Program) (ram : Ram) (instr : Instruction)
       (d : Int) (o : Option Int) (srcOp : Operand) (src : Int) (c' : CPU) (r' : Ram),
      cpu.halted = false → 0 ≤ cpu.IP →
      prog.ast.get? cpu.IP.toNat = some instr →
      instr.op = "ADD" → instr.operands = [⟨OpType.reg, OpVal.num d, o⟩, srcOp] →
      resolveOperand srcOp cpu ram prog.labels = Except.ok src →
      step cpu prog ram = StepRes.ok c' r' →
      c'.F.CF = decide (2147483647 < |regGet cpu d + src|) ∧
      c'.F.OF = decide (2147483647 < regGet cpu d + src ∨ regGet cpu d + src < -2147483648) ∧
      c'.F.ZF = decide (regGet cpu d + src = 0) ∧
      c'.F.NF = decide (regGet cpu d + src < 0)) ∧
    (∀ (cpu : CPU) (prog : Program) (ram : Ram) (instr : Instruction)
       (d : Int) (o : Option Int) (srcOp : Operand) (src : Int) (c' : CPU) (r' : Ram),
      cpu.halted = false → 0 ≤ cpu.IP →
      prog.ast.get? cpu.IP.toNat = some instr →
      instr.op = "SUB" → instr.operands = [⟨OpType.reg, OpVal.num d, o⟩, srcOp] →
      resolveOperand srcOp cpu ram prog.labels = Except.ok src →
      step cpu prog ram = StepRes.ok c' r' →
      c'.F.CF = decide (2147483647 < |regGet cpu d - src|) ∧
      c'.F.OF = decide (2147483647 < regGet cpu d - src ∨ regGet cpu d - src < -2147483648) ∧
      c'.F.ZF = decide (regGet cpu d - src = 0) ∧
      c'.F.NF = decide (regGet cpu d - src < 0)) ∧
    (∀ (cpu : CPU) (prog : Program) (ram : Ram) (instr : Instruction)
       (d : Int) (o : Option Int) (c' : CPU) (r' : Ram),
      cpu.halted = false → 0 ≤ cpu.IP →
      prog.ast.get? cpu.IP.toNat = some instr →
      (instr.op = "INC" ∨ instr.op = "DEC") →
      instr.operands = [⟨OpType.reg, OpVal.num d, o⟩] →
      step cpu prog ram = StepRes.ok c' r' →
      (let result := if instr.op = "INC" then regGet cpu d + 1 else regGet cpu d - 1
       c'.F.CF = decide (2147483647 < |result|) ∧
       c'.F.OF = decide (2147483647 < result ∨ result < -2147483648))) ∧
    (∀ (cpu : CPU) (prog : Program) (ram : Ram) (instr : Instruction)
       (d : Int) (o : Option Int) (srcOp : Operand) (src : Int) (c' : CPU) (r' : Ram),
      cpu.halted = false → 0 ≤ cpu.IP →
      prog.ast.get? cpu.IP.toNat = some instr →
      instr.op = "MUL" → instr.operands = [⟨OpType.reg, OpVal.num d, o⟩, srcOp] →
      resolveOperand srcOp cpu ram prog.labels = Except.ok src →
      step cpu prog ram = StepRes.ok c' r' →
      c'.F.CF = cpu.F.CF ∧ c'.F.OF = cpu.F.OF ∧
      c'.F.ZF = decide (regGet cpu d * src = 0) ∧
      c'.F.NF = decide (regGet cpu d * src < 0)) ∧
    (∀ (cpu : CPU) (prog : Program) (ram : Ram) (instr : Instruction)
       (d : Int) (o : Option Int) (srcOp : Operand) (src : Int) (c' : CPU) (r' : Ram),
      cpu.halted = false → 0 ≤ cpu.IP →
      prog.ast.get? cpu.IP.toNat = some instr →
      instr.op = "DIV" → instr.operands = [⟨OpType.reg, OpVal.num d, o⟩, srcOp] →
      resolveOperand srcOp cpu ram prog.labels = Except.ok src → src ≠ 0 →
      step cpu prog ram = StepRes.ok c' r' →
      c'.F.CF = cpu.F.CF ∧ c'.F.OF = cpu.F.OF) ∧
    (∀ (cpu : CPU) (prog : Program) (ram : Ram) (instr : Instruction)
       (o0 srcOp : Operand),
      cpu.halted = false → 0 ≤ cpu.IP →
      prog.ast.get? cpu.IP.toNat = some instr →
      instr.op = "DIV" → instr.operands = [o0, srcOp] →
      resolveOperand srcOp cpu ram prog.labels = Except.ok 0 →
      step cpu prog ram =
        StepRes.fail instr.line ("Division by zero")
          { cpu with F := { cpu.F with CF := true } } ram) ∧
    (∀ (cpu : CPU) (prog : Program) (ram : Ram) (instr : Instruction)
       (o0 o1 : Operand) (a b : Int) (c' : CPU) (r' : Ram),
      cpu.halted = false → 0 ≤ cpu.IP →
      prog.ast.get? cpu.IP.toNat = some instr →
      instr.op = "CMP" → instr.operands = [o0, o1] →
      resolveOperand o0 cpu ram prog.labels = Except.ok a →
      resolveOperand o1 cpu ram prog.labels = Except.ok b →
      step cpu prog ram = StepRes.ok c' r' →
      c'.F.CF = cpu.F.CF ∧ c'.F.OF = cpu.F.OF ∧
      c'.F.ZF = decide (a - b = 0) ∧ c'.F.NF = decide (a - b < 0)) ∧
    (∀ (cpu : CPU) (prog : Program) (ram : Ram) (instr : Instruction)
       (d : Int) (o : Option Int) (srcOp : Operand) (src : Int) (c' : CPU) (r' : Ram),
      cpu.halted = false → 0 ≤ cpu.IP →
      prog.ast.get? cpu.IP.toNat = some instr →
      instr.op = "MOV" → instr.operands = [⟨OpType.reg, OpVal.num d, o⟩, srcOp] →
      srcOp.type ≠ OpType.label →
      resolveOperand srcOp cpu ram prog.labels = Except.ok src →
      step cpu prog ram = StepRes.ok c' r' →
      c'.F = cpu.F) := by
  refine ⟨?_, ?_, ?_, ?_, ?_, ?_, ?_, ?_⟩
  · intro cpu prog ram instr d o srcOp src c' r' h1 h2 h3 hop hops hsrc hok
    rw [step_eq_of_next cpu prog ram instr _ _ h1 h2 h3
      (by rw [hop, hops]; exact exec_add_eq d o srcOp cpu ram prog.labels src hsrc)] at hok
    injection hok with hc hr
    subst hc
    simp [setFlags_F_addsub _ _ _ (Or.inl rfl)]
  · intro cpu prog ram instr d o srcOp src c' r' h1 h2 h3 hop hops hsrc hok
    rw [step_eq_of_next cpu prog ram instr _ _ h1 h2 h3
      (by rw [hop, hops]; exact exec_sub_eq d o srcOp cpu ram prog.labels src hsrc)] at hok
    injection hok with hc hr
    subst hc
    simp [setFlags_F_addsub _ _ _ (Or.inr rfl)]
  · intro cpu prog ram instr d o c' r' h1 h2 h3 hop hops hok
    rcases hop with hI | hD
    · rw [step_eq_of_next cpu prog ram instr _ _ h1 h2 h3
        (by rw [hI, hops]; exact exec_inc_eq d o cpu ram prog.labels)] at hok
      injection hok with hc hr
      subst hc
      simp [hI, setFlags_F_addsub _ _ _ (Or.inl rfl)]
    · rw [step_eq_of_next cpu prog ram instr _ _ h1 h2 h3
        (by rw [hD, hops]; exact exec_dec_eq d o cpu ram prog.labels)] at hok
      injection hok with hc hr
      subst hc
      have hne : instr.op ≠ "INC" := by rw [hD]; decide
      simp [hD, setFlags_F_addsub _ _ _ (Or.inr rfl)]
  · intro cpu prog ram instr d o srcOp src c' r' h1 h2 h3 hop hops hsrc hok
    rw [step_eq_of_next cpu prog ram instr _ _ h1 h2 h3
      (by rw [hop, hops]; exact exec_mul_eq d o srcOp cpu ram prog.labels src hsrc)] at hok
    injection hok with hc hr
    subst hc
    have hF := setFlags_F_other (regSet cpu d (regGet cpu d * src))
      (regGet cpu d * src) FlagOp.mul (by decide)
    simp [hF, regSet_F]
  · intro cpu prog ram instr d o srcOp src c' r' h1 h2 h3 hop hops hsrc hnz hok
    rw [step_eq_of_next cpu prog ram instr _ _ h1 h2 h3
      (by rw [hop, hops]; exact exec_div_eq d o srcOp cpu ram prog.labels src hsrc hnz)] at hok
    injection hok with hc hr
    subst hc
    have hF := setFlags_F_other (regSet cpu d (Int.fdiv (regGet cpu d) src))
      (Int.fdiv (regGet cpu d) src) FlagOp.div (by decide)
    simp [hF, regSet_F]
  · intro cpu prog ram instr o0 srcOp h1 h2 h3 hop hops hsrc
    exact step_eq_of_throw cpu prog ram instr _ _ _ h1 h2 h3
      (by rw [hop, hops]; exact exec_div_zero_eq o0 srcOp cpu ram prog.labels hsrc)
  · intro cpu prog ram instr o0 o1 a b c' r' h1 h2 h3 hop hops h0 hb hok
    rw [step_eq_of_next cpu prog ram instr _ _ h1 h2 h3
      (by rw [hop, hops]; exact exec_cmp_eq o0 o1 cpu ram prog.labels a b h0 hb)] at hok
    injection hok with hc hr
    subst hc
    have hF := setFlags_F_other cpu (a - b) FlagOp.cmp (by decide)
    simp [hF]
  · intro cpu prog ram instr d o srcOp src c' r' h1 h2 h3 hop hops hlab hsrc hok
    rw [step_eq_of_next cpu prog ram instr _ _ h1 h2 h3
      (by rw [hop, hops]; exact exec_mov_eq d o srcOp cpu ram prog.labels src hlab hsrc)] at hok
    injection hok with hc hr
    subst hc
    simp [regSet_F]

/-- CPU with R0 = 2147483647 for the C5 witness. -/
def cpuC5w : CPU := { reset with R := [2147483647, 0, 0, 0, 0, 0, 0, 0] }

def progC5w : Program := mkProg [⟨"ADD", [regop 0, immop 1], 1, "ADD R0, #1"⟩]

/-- Result of the C5 witness step: R0 wrapped to -2^31, CF and OF set. -/
def cpuC5w' : CPU :=
  { R := [-2147483648, 0, 0, 0, 0, 0, 0, 0], SP := 4092, BP := 4092, IP := 1,
    F := ⟨false, false, true, true⟩, halted := false }

/-- C5 witness: the amended flag semantics applied to a concrete overflowing
ADD. -/
theorem c5_amended_flag_semantics_witness :
    cpuC5w'.F.CF = decide (2147483647 < |regGet cpuC5w 0 + 1|) ∧
    cpuC5w'.F.OF =
      decide (2147483647 < regGet cpuC5w 0 + 1 ∨ regGet cpuC5w 0 + 1 < -2147483648) ∧
    cpuC5w'.F.ZF = decide (regGet cpuC5w 0 + 1 = 0) ∧
    cpuC5w'.F.NF = decide (regGet cpuC5w 0 + 1 < 0) :=
  c5_amended_flag_semantics.1 cpuC5w progC5w ram0
    ⟨"ADD", [regop 0, immop 1], 1, "ADD R0, #1"⟩ 0 none (immop 1) 1 cpuC5w' ram0
    rfl (by decide) rfl rfl rfl rfl rfl

/-! ### C6 : 32-bit wraparound of arithmetic destinations -/

/-- How `regSet` stores a value: `Int32Array` wraparound for R0..R7, raw
(unwrapped) assignment for the SP/BP pseudo-registers. -/
theorem stored_shape (cpu : CPU) (d v : Int) :
    (0 ≤ d → (regSet cpu d v).R = cpu.R.set d.toNat (toInt32 v) ∧
      (regSet cpu d v).SP = cpu.SP ∧ (regSet cpu d v).BP = cpu.BP) ∧
    (d = -1 → (regSet cpu d v).SP = v ∧ (regSet cpu d v).R = cpu.R ∧
      (regSet cpu d v).BP = cpu.BP) ∧
    (d = -2 → (regSet cpu d v).BP = v ∧ (regSet cpu d v).R = cpu.R ∧
      (regSet cpu d v).SP = cpu.SP) := by
  unfold regSet
  refine ⟨?_, ?_, ?_⟩ <;> intro hd
  · rw [if_neg (by omega), if_neg (by omega)]
    exact ⟨rfl, rfl, rfl⟩
  · subst hd
    rw [if_pos rfl]
    exact ⟨rfl, rfl, rfl⟩
  · subst hd
    rw [if_neg (by decide), if_pos rfl]
    exact ⟨rfl, rfl, rfl⟩

/-- CPU with SP = 2^31 - 1 for the C6 counterexample. -/
def cpuC6 : CPU := { reset with SP := 2147483647 }

/-- State after `ADD SP, #1` on `cpuC6`: SP = 2^31 (not wrapped). -/
def cpuC6' : CPU :=
  { R := List.replicate 8 0, SP := 2147483648, BP := 4092, IP := 1,
    F := ⟨false, false, true, true⟩, halted := false }

/-- C6 counterexample: `ADD SP, #1` with SP = 2^31 - 1 stores 2^31 in SP,
not the 32-bit wrapped value -2^31: SP and BP are plain numbers, only the
`Int32Array` registers R0..R7 wrap. -/
theorem c6_counterexample_sp_not_wrapped :
    step cpuC6 (mkProg [⟨"ADD", [regop (-1), immop 1], 1, "ADD SP, #1"⟩]) ram0 =
      StepRes.ok cpuC6' ram0 ∧
    cpuC6'.SP = 2147483648 ∧
    toInt32 (cpuC6.SP + 1) = -2147483648 :=
  ⟨rfl, rfl, by decide⟩

/-- C6 amended: for every arithmetic instruction (ADD, SUB, MUL, DIV, INC,
DEC), a result stored to one of R0..R7 is reduced to 32-bit signed
(two's-complement wraparound) semantics, while a result stored to SP or BP is
stored as the computed value with no 32-bit reduction at all. -/
theorem c6_amended_arith_storage :
    (∀ (cpu : CPU) (prog : Program) (ram : Ram) (instr : Instruction)
       (d : Int) (o : Option Int) (srcOp : Operand) (src : Int) (c' : CPU) (r' : Ram),
      cpu.halted = false → 0 ≤ cpu.IP →
      prog.ast.get? cpu.IP.toNat = some instr →
      (instr.op = "ADD" ∨ instr.op = "SUB" ∨ instr.op = "MUL" ∨ instr.op = "DIV") →
      instr.operands = [⟨OpType.reg, OpVal.num d, o⟩, srcOp] →
      resolveOperand srcOp cpu ram prog.labels = Except.ok src →
      (instr.op = "DIV" → src ≠ 0) →
      step cpu prog ram = StepRes.ok c' r' →
      (let result :=
        if instr.op = "ADD" then regGet cpu d + src
        else if instr.op = "SUB" then regGet cpu d - src
        else if instr.op = "MUL" then regGet cpu d * src
        else Int.fdiv (regGet cpu d) src
       r' = ram ∧
       (0 ≤ d → c'.R = cpu.R.set d.toNat (toInt32 result) ∧
         c'.SP = cpu.SP ∧ c'.BP = cpu.BP) ∧
       (d = -1 → c'.SP = result ∧ c'.R = cpu.R ∧ c'.BP = cpu.BP) ∧
       (d = -2 → c'.BP = result ∧ c'.R = cpu.R ∧ c'.SP = cpu.SP))) ∧
    (∀ (cpu : CPU) (prog : Program) (ram : Ram) (instr : Instruction)
       (d : Int) (o : Option Int) (c' : CPU) (r' : Ram),
      cpu.halted = false → 0 ≤ cpu.IP →
      prog.ast.get? cpu.IP.toNat = some instr →
      (instr.op = "INC" ∨ instr.op = "DEC") →
      instr.operands = [⟨OpType.reg, OpVal.num d, o⟩] →
      step cpu prog ram = StepRes.ok c' r' →
      (let result :=
        if instr.op = "INC" then regGet cpu d + 1 else regGet cpu d - 1
       r' = ram ∧
       (0 ≤ d → c'.R = cpu.R.set d.toNat (toInt32 result) ∧
         c'.SP = cpu.SP ∧ c'.BP = cpu.BP) ∧
       (d = -1 → c'.SP = result ∧ c'.R = cpu.R ∧ c'.BP = cpu.BP) ∧
       (d = -2 → c'.BP = result ∧ c'.R = cpu.R ∧ c'.SP = cpu.SP))) := by
  constructor
  · intro cpu prog ram instr d o srcOp src c' r' h1 h2 h3 hop hops hsrc hdiv hok
    have hfin : ∀ (result : Int) (tag : FlagOp),
        c' = { setFlags (regSet cpu d result) result tag with
               IP := (setFlags (regSet cpu d result) result tag).IP + 1 } →
        r' = ram →
        (r' = ram ∧
         (0 ≤ d → c'.R = cpu.R.set d.toNat (toInt32 result) ∧
           c'.SP = cpu.SP ∧ c'.BP = cpu.BP) ∧
         (d = -1 → c'.SP = result ∧ c'.R = cpu.R ∧ c'.BP = cpu.BP) ∧
         (d = -2 → c'.BP = result ∧ c'.R = cpu.R ∧ c'.SP = cpu.SP)) := by
      intro result tag hc hr
      subst hc
      have hs := stored_shape cpu d result
      refine ⟨hr, fun hd => ?_, fun hd => ?_, fun hd => ?_⟩
      · have h' := hs.1 hd
        simpa [setFlags_R, setFlags_SP, setFlags_BP] using h'
      · have h' := hs.2.1 hd
        simpa [setFlags_R, setFlags_SP, setFlags_BP] using h'
      · have h' := hs.2.2 hd
        simpa [setFlags_R, setFlags_SP, setFlags_BP] using h'
    rcases hop with hA | hS | hM | hD
    · rw [step_eq_of_next cpu prog ram instr _ _ h1 h2 h3
        (by rw [hA, hops]; exact exec_add_eq d o srcOp cpu ram prog.labels src hsrc)] at hok
      injection hok with hc hr
      simp only [hA]
      exact hfin (regGet cpu d + src) FlagOp.add hc.symm hr.symm
    · rw [step_eq_of_next cpu prog ram instr _ _ h1 h2 h3
        (by rw [hS, hops]; exact exec_sub_eq d o srcOp cpu ram prog.labels src hsrc)] at hok
      injection hok with hc hr
      simp only [hS]
      exact hfin (regGet cpu d - src) FlagOp.sub hc.symm hr.symm
    · rw [step_eq_of_next cpu prog ram instr _ _ h1 h2 h3
        (by rw [hM, hops]; exact exec_mul_eq d o srcOp cpu ram prog.labels src hsrc)] at hok
      injection hok with hc hr
      simp only [hM]
      exact hfin (regGet cpu d * src) FlagOp.mul hc.symm hr.symm
    · rw [step_eq_of_next cpu prog ram instr _ _ h1 h2 h3
        (by rw [hD, hops];
            exact exec_div_eq d o srcOp cpu ram prog.labels src hsrc (hdiv hD))] at hok
      injection hok with hc hr
      simp only [hD]
      exact hfin (Int.fdiv (regGet cpu d) src) FlagOp.div hc.symm hr.symm
  · intro cpu prog ram instr d o c' r' h1 h2 h3 hop hops hok
    have hfin : ∀ (result : Int) (tag : FlagOp),
        c' = { setFlags (regSet cpu d result) result tag with
               IP := (setFlags (regSet cpu d result) result tag).IP + 1 } →
        r' = ram →
        (r' = ram ∧
         (0 ≤ d → c'.R = cpu.R.set d.toNat (toInt32 result) ∧
           c'.SP = cpu.SP ∧ c'.BP = cpu.BP) ∧
         (d = -1 → c'.SP = result ∧ c'.R = cpu.R ∧ c'.BP = cpu.BP) ∧
         (d = -2 → c'.BP = result ∧ c'.R = cpu.R ∧ c'.SP = cpu.SP)) := by
      intro result tag hc hr
      subst hc
      have hs := stored_shape cpu d result
      refine ⟨hr, fun hd => ?_, fun hd => ?_, fun hd => ?_⟩
      · have h' := hs.1 hd
        simpa [setFlags_R, setFlags_SP, setFlags_BP] using h'
      · have h' := hs.2.1 hd
        simpa [setFlags_R, setFlags_SP, setFlags_BP] using h'
      · have h' := hs.2.2 hd
        simpa [setFlags_R, setFlags_SP, setFlags_BP] using h'
    rcases hop with hI | hD
    · rw [step_eq_of_next cpu prog ram instr _ _ h1 h2 h3
        (by rw [hI, hops]; exact exec_inc_eq d o cpu ram prog.labels)] at hok
      injection hok with hc hr
      simp only [hI]
      exact hfin (regGet cpu d + 1) FlagOp.add hc.symm hr.symm
    · rw [step_eq_of_next cpu prog ram instr _ _ h1 h2 h3
        (by rw [hD, hops]; exact exec_dec_eq d o cpu ram prog.labels)] at hok
      injection hok with hc hr
      simp only [hD]
      exact hfin (regGet cpu d - 1) FlagOp.sub hc.symm hr.symm

/-- CPU with R0 = 2^31 - 1 for the C6 witness. -/
def cpuC6w : CPU := { reset with R := [2147483647, 0, 0, 0, 0, 0, 0, 0] }

def progC6w : Program := mkProg [⟨"ADD", [regop 0, immop 1], 1, "ADD R0, #1"⟩]

/-- State after `ADD R0, #1` on `cpuC6w`: R0 wrapped to -2^31. -/
def cpuC6w' : CPU :=
  { R := [-2147483648, 0, 0, 0, 0, 0, 0, 0], SP := 4092, BP := 4092, IP := 1,
    F := ⟨false, false, true, true⟩, halted := false }

def progC6sp : Program := mkProg [⟨"ADD", [regop (-1), immop 1], 1, "ADD SP, #1"⟩]

/-- C6 witness: the amended storage semantics applied to a concrete
overflowing ADD into R0 (wrapped) and into SP (not wrapped). -/
theorem c6_amended_arith_storage_witness :
    (cpuC6w'.R = cpuC6w.R.set (Int.toNat 0) (toInt32 (regGet cpuC6w 0 + 1)) ∧
     cpuC6w'.SP = cpuC6w.SP ∧ cpuC6w'.BP = cpuC6w.BP) ∧
    (cpuC6'.SP = regGet cpuC6 (-1) + 1 ∧ cpuC6'.R = cpuC6.R ∧
     cpuC6'.BP = cpuC6.BP) :=
  ⟨(c6_amended_arith_storage.1 cpuC6w progC6w ram0
      ⟨"ADD", [regop 0, immop 1], 1, "ADD R0, #1"⟩ 0 none (immop 1) 1 cpuC6w' ram0
      rfl (by decide) rfl (Or.inl rfl) rfl rfl (fun h => by exact absurd h (by decide))
      rfl).2.1 (by decide),
   (c6_amended_arith_storage.1 cpuC6 progC6sp ram0
      ⟨"ADD", [regop (-1), immop 1], 1, "ADD SP, #1"⟩ (-1) none (immop 1) 1 cpuC6' ram0
      rfl (by decide) rfl (Or.inl rfl) rfl rfl (fun h => by exact absurd h (by decide))
      rfl).2.2.1 rfl⟩

/-! ### C7 : atomicity of failing steps -/

/-- Shape of every state a failing case body can leave behind: memory and
all CPU components except SP (PUSH/CALL decrement, POP increment) and the
carry flag (division by zero) are untouched. -/
theorem exec_throw_shape (op : String) (operands : List Operand) (cpu : CPU)
    (ram : Ram) (labels : Labels) (m : String) (c' : CPU) (r' : Ram)
    (h : exec op operands cpu ram labels = ExecRes.throwE m c' r') :
    r' = ram ∧ c'.R = cpu.R ∧ c'.BP = cpu.BP ∧ c'.IP = cpu.IP ∧
    c'.halted = cpu.halted ∧
    (c'.F = cpu.F ∨ c'.F = { cpu.F with CF := true }) ∧
    (c'.SP = cpu.SP ∨ c'.SP = cpu.SP - 4 ∨ c'.SP = cpu.SP + 4) := by
  unfold exec arithCase takeJump at h
  repeat' split at h
  all_goals cases h
  all_goals simp

/-- CPU with SP = 2 for the C7 counterexample. -/
def cpuC7 : CPU := { reset with SP := 2 }

/-- C7 counterexample: `PUSH R0` with SP = 2 raises the stack-overflow
`AsmError`, but the stack pointer has already been decremented to -2 (outside
[0, 4096)) when the error is thrown: the failed step left the CPU state
mutated although the push (the instruction's defined effect) never
happened. -/
theorem c7_counterexample_push_overflow_mutates_sp :
    step cpuC7 (mkProg [⟨"PUSH", [regop 0], 1, "PUSH R0"⟩]) ram0 =
      StepRes.fail 1 ("Stack overflow") { cpuC7 with SP := -2 } ram0 ∧
    ({ cpuC7 with SP := -2 } : CPU).SP ≠ cpuC7.SP :=
  ⟨rfl, by decide⟩

/-- C7 amended: whenever `step` raises an `AsmError`, the memory, the general
registers, BP, IP and the halted bit are unchanged; the flags are unchanged
except that division by zero sets the carry flag; and SP is unchanged except
that a PUSH or CALL that fails after its decrement leaves SP lowered by 4 and
a POP whose destination is not a register leaves SP raised by 4. -/
theorem c7_amended_fail_atomicity :
    ∀ (cpu : CPU) (prog : Program) (ram : Ram) (l : Nat) (m : String)
      (c' : CPU) (r' : Ram),
      step cpu prog ram = StepRes.fail l m c' r' →
      r' = ram ∧ c'.R = cpu.R ∧ c'.BP = cpu.BP ∧ c'.IP = cpu.IP ∧
      c'.halted = cpu.halted ∧
      (c'.F = cpu.F ∨ c'.F = { cpu.F with CF := true }) ∧
      (c'.SP = cpu.SP ∨ c'.SP = cpu.SP - 4 ∨ c'.SP = cpu.SP + 4) := by
  intro cpu prog ram l m c' r' h
  unfold step at h
  split at h
  · cases h
  · split at h
    · cases h
    · split at h
      · cases h
      · split at h
        · cases h
        · cases h
        · cases h
          rename_i heq
          exact exec_throw_shape _ _ cpu ram prog.labels _ _ _ heq

/-- C7 witness: the amended atomicity statement applied to the failing PUSH
of the counterexample state. -/
theorem c7_amended_fail_atomicity_witness :
    ram0 = ram0 ∧ ({ cpuC7 with SP := -2 } : CPU).R = cpuC7.R ∧
    ({ cpuC7 with SP := -2 } : CPU).BP = cpuC7.BP ∧
    ({ cpuC7 with SP := -2 } : CPU).IP = cpuC7.IP ∧
    ({ cpuC7 with SP := -2 } : CPU).halted = cpuC7.halted ∧
    (({ cpuC7 with SP := -2 } : CPU).F = cpuC7.F ∨
      ({ cpuC7 with SP := -2 } : CPU).F = { cpuC7.F with CF := true }) ∧
    (({ cpuC7 with SP := -2 } : CPU).SP = cpuC7.SP ∨
      ({ cpuC7 with SP := -2 } : CPU).SP = cpuC7.SP - 4 ∨
      ({ cpuC7 with SP := -2 } : CPU).SP = cpuC7.SP + 4) :=
  c7_amended_fail_atomicity cpuC7
    (mkProg [⟨"PUSH", [regop 0], 1, "PUSH R0"⟩]) ram0 1 ("Stack overflow")
    { cpuC7 with SP := -2 } ram0 rfl

/-! ### C8 : CALL/RET symmetry -/

theorem toInt32_eq_self (x : Int) (h1 : -2147483648 ≤ x)
    (h2 : x < 2147483648) : toInt32 x = x := by
  unfold toInt32
  split <;> omega

theorem byteAt_set_ne (l : Ram) (i j x : Nat) (h : i ≠ j) :
    byteAt (l.set i x) j = byteAt l j := by
  unfold byteAt
  rw [List.get?_set_ne _ _ h]

theorem byteAt_set_lt (l : Ram) (i x : Nat) (h : i < l.length) :
    byteAt (l.set i x) i = x := by
  unfold byteAt
  rw [List.get?_set_eq_of_lt _ h]
  rfl

/-- Reading back the four bytes just written yields the 32-bit reduced
value. -/
theorem read32_write32 (ram : Ram) (a : Nat) (v : Int)
    (h : a + 4 ≤ ram.length) :
    read32 (write32 ram a v) a = toInt32 v := by
  have hu0 : (0 : Int) ≤ toUInt32 v := Int.emod_nonneg v (by decide)
  have hu1 : toUInt32 v < 4294967296 := Int.emod_lt_of_pos v (by decide)
  have hlt : (toUInt32 v).toNat < 4294967296 := by omega
  unfold write32
  unfold read32
  rw [byteAt_set_ne _ _ _ _ (by omega), byteAt_set_ne _ _ _ _ (by omega),
    byteAt_set_ne _ _ _ _ (by omega),
    byteAt_set_lt _ _ _ (by first | omega | (simp only [List.length_set]; omega))]
  rw [byteAt_set_ne _ _ _ _ (by omega), byteAt_set_ne _ _ _ _ (by omega),
    byteAt_set_lt _ _ _ (by first | omega | (simp only [List.length_set]; omega))]
  rw [byteAt_set_ne _ _ _ _ (by omega),
    byteAt_set_lt _ _ _ (by first | omega | (simp only [List.length_set]; omega))]
  rw [byteAt_set_lt _ _ _ (by first | omega | (simp only [List.length_set]; omega))]
  have hsum : (toUInt32 v).toNat % 256 + 256 * ((toUInt32 v).toNat / 256 % 256) +
      65536 * ((toUInt32 v).toNat / 65536 % 256) +
      16777216 * ((toUInt32 v).toNat / 16777216 % 256) = (toUInt32 v).toNat := by
    omega
  rw [hsum]
  have hofnat : Int.ofNat (toUInt32 v).toNat = toUInt32 v := by
    rw [Int.ofNat_eq_coe]
    exact Int.toNat_of_nonneg hu0
  rw [hofnat]
  unfold toUInt32
  have hmm : v % 4294967296 % 4294967296 = v % 4294967296 :=
    Int.emod_emod_of_dvd v dvd_rfl
  unfold toInt32
  rw [hmm]

/-- C8: a CALL at instruction index `k` (= `cpu.IP`) decrements SP by 4,
stores `k + 1` in the word at the new SP, and jumps; a RET later executed
with SP at that slot, the slot's word unmodified, sets IP to exactly `k + 1`
and restores SP to its pre-CALL value. -/
theorem c8_call_ret_symmetry :
    ∀ (cpu : CPU) (prog : Program) (ram : Ram) (instr : Instruction)
      (tOp : Operand) (target : Int),
      cpu.halted = false → 0 ≤ cpu.IP → cpu.IP ≤ 2147483646 →
      prog.ast.get? cpu.IP.toNat = some instr →
      instr.op = "CALL" → instr.operands = [tOp] →
      resolveOperand tOp cpu ram prog.labels = Except.ok target →
      4 ≤ cpu.SP → cpu.SP ≤ 4095 → ram.length = 4096 →
      (step cpu prog ram =
        StepRes.ok { cpu with SP := cpu.SP - 4, IP := target }
          (write32 ram (cpu.SP - 4).toNat (cpu.IP + 1)) ∧
       read32 (write32 ram (cpu.SP - 4).toNat (cpu.IP + 1)) (cpu.SP - 4).toNat =
         cpu.IP + 1 ∧
       (∀ (c2 : CPU) (r2 : Ram) (instr2 : Instruction),
         c2.halted = false → 0 ≤ c2.IP →
         prog.ast.get? c2.IP.toNat = some instr2 → instr2.op = "RET" →
         c2.SP = cpu.SP - 4 → r2.length = 4096 →
         read32 r2 c2.SP.toNat = cpu.IP + 1 →
         step c2 prog r2 =
           StepRes.ok { c2 with IP := cpu.IP + 1, SP := cpu.SP } r2)) := by
  intro cpu prog ram instr tOp target h1 h2 hip h3 hop hops htarget hsp1 hsp2 hlen
  have hwr : (cpu.SP - 4).toNat + 4 ≤ ram.length := by omega
  refine ⟨?_, ?_, ?_⟩
  · apply step_eq_of_jump cpu prog ram instr _ _ h1 h2 h3
    rw [hop, hops]
    unfold exec
    simp only [List.length_cons, List.length_nil, List.getD_cons_zero]
    have hovf : ¬(cpu.SP - 4 < 0) := by omega
    have hbnd : 0 ≤ cpu.SP - 4 ∧ cpu.SP - 4 + 4 ≤ (ram.length : Int) := by
      constructor <;> omega
    unfold dvSetInt32
    simp only [htarget, if_neg hovf, if_pos hbnd]
    simp
  · rw [read32_write32 ram _ _ hwr]
    exact toInt32_eq_self _ (by omega) (by omega)
  · intro c2 r2 instr2 h1b h2b h3b hopb hspb hlenb hword
    apply step_eq_of_jump c2 prog r2 instr2 _ _ h1b h2b h3b
    rw [hopb]
    unfold exec
    have hunder : ¬(c2.SP ≥ RAM_SIZE - 4) := by unfold RAM_SIZE; omega
    have hbnd2 : 0 ≤ c2.SP ∧ c2.SP + 4 ≤ (r2.length : Int) := by
      constructor <;> omega
    unfold dvGetInt32
    simp only [if_neg hunder, if_pos hbnd2, hword]
    have hsp4 : c2.SP + 4 = cpu.SP := by omega
    rw [hsp4]

theorem ram0_length : ram0.length = 4096 := List.length_replicate 4096 0

/-- Program for the C8/C9 witnesses: `CALL #2; HALT; RET`. -/
def prog8 : Program :=
  mkProg [⟨"CALL", [immop 2], 1, "CALL #2"⟩, ⟨"HALT", [], 2, "HALT"⟩,
    ⟨"RET", [], 3, "RET"⟩]

/-- The CPU state after the witness CALL: SP = 4088, IP = 2. -/
def cpuC8mid : CPU := { reset with SP := reset.SP - 4, IP := 2 }

/-- C8 witness: the CALL/RET symmetry applied to a concrete program starting
from the reset state. -/
theorem c8_call_ret_symmetry_witness :
    step reset prog8 ram0 =
      StepRes.ok { reset with SP := reset.SP - 4, IP := 2 }
        (write32 ram0 (reset.SP - 4).toNat (reset.IP + 1)) ∧
    step cpuC8mid prog8 (write32 ram0 (reset.SP - 4).toNat (reset.IP + 1)) =
      StepRes.ok { cpuC8mid with IP := reset.IP + 1, SP := reset.SP }
        (write32 ram0 (reset.SP - 4).toNat (reset.IP + 1)) :=
  have H := c8_call_ret_symmetry reset prog8 ram0
    ⟨"CALL", [immop 2], 1, "CALL #2"⟩ (immop 2) 2
    rfl (by decide) (by decide) rfl rfl rfl rfl (by decide) (by decide) ram0_length
  have hwlen : (write32 ram0 (reset.SP - 4).toNat (reset.IP + 1)).length = 4096 := by
    rw [length_write32]
    exact ram0_length
  have hword : read32 (write32 ram0 (reset.SP - 4).toNat (reset.IP + 1))
      (cpuC8mid.SP.toNat) = reset.IP + 1 := by
    have hsp : cpuC8mid.SP.toNat = (reset.SP - 4).toNat := rfl
    rw [hsp, read32_write32 ram0 _ _ (by rw [ram0_length]; decide)]
    exact toInt32_eq_self _ (by decide) (by decide)
  ⟨H.1,
   H.2.2 cpuC8mid (write32 ram0 (reset.SP - 4).toNat (reset.IP + 1))
     ⟨"RET", [], 3, "RET"⟩ rfl (by decide) rfl rfl rfl hwlen hword⟩

/-! ### C9 : breakpoint handling in `run` -/

/-- Reaching `c2`/`r2` from `c0`/`r0` in `n` successful `step` calls, each
taken from a non-halted state whose instruction pointer is not in the
breakpoint list `bps`. -/
inductive AvoidSteps (prog : Program) (bps : List Int) :
    CPU → Ram → CPU → Ram → Nat → Prop where
  | refl (cpu : CPU) (ram : Ram) : AvoidSteps prog bps cpu ram cpu ram 0
  | cons (c0 : CPU) (r0 : Ram) (c1 : CPU) (r1 : Ram) (c2 : CPU) (r2 : Ram)
      (n : Nat) (hh : c0.halted = false) (hb : bps.contains c0.IP = false)
      (hs : step c0 prog r0 = StepRes.ok c1 r1)
      (ht : AvoidSteps prog bps c1 r1 c2 r2 n) :
      AvoidSteps prog bps c0 r0 c2 r2 (n + 1)

/-- Every normal completion of the run loop took its steps from non-halted,
non-breakpoint states, and stopped with fuel to spare only on halt or
breakpoint. -/
theorem runAux_done_spec (prog : Program) (bps : List Int) :
    ∀ (fuel : Nat) (cpu : CPU) (ram : Ram) (steps : Nat) (cf : CPU) (rf : Ram)
      (sf : Nat), runAux prog bps fuel cpu ram steps = RunRes.done cf rf sf →
      ∃ n, sf = steps + n ∧ n ≤ fuel ∧ AvoidSteps prog bps cpu ram cf rf n ∧
        (n < fuel → cf.halted = true ∨ bps.contains cf.IP = true) := by
  intro fuel
  induction fuel with
  | zero =>
      intro cpu ram steps cf rf sf h
      simp only [runAux] at h
      cases h
      exact ⟨0, by omega, by omega, AvoidSteps.refl cpu ram, by omega⟩
  | succ fuel ih =>
      intro cpu ram steps cf rf sf h
      simp only [runAux] at h
      by_cases hh : cpu.halted = true
      · rw [if_pos hh] at h
        cases h
        exact ⟨0, by omega, by omega, AvoidSteps.refl cpu ram, fun _ => Or.inl hh⟩
      · rw [if_neg hh] at h
        rw [Bool.not_eq_true] at hh
        by_cases hb : bps.contains cpu.IP = true
        · rw [if_pos hb] at h
          cases h
          exact ⟨0, by omega, by omega, AvoidSteps.refl cpu ram,
            fun _ => Or.inr hb⟩
        · rw [if_neg hb] at h
          rw [Bool.not_eq_true] at hb
          cases hs : step cpu prog ram with
          | ok c r =>
              rw [hs] at h
              have h2 : runAux prog bps fuel c r (steps + 1) =
                  RunRes.done cf rf sf := h
              obtain ⟨n, hn1, hn2, hn3, hn4⟩ := ih c r (steps + 1) cf rf sf h2
              exact ⟨n + 1, by omega, by omega,
                AvoidSteps.cons cpu ram c r cf rf n hh hb hs hn3,
                fun hlt => hn4 (by omega)⟩
          | fail l m c r =>
              rw [hs] at h
              exact RunRes.noConfusion h
          | crash m c r =>
              rw [hs] at h
              exact RunRes.noConfusion h

/-- Every error completion of the run loop arose from a `step` taken at a
non-halted, non-breakpoint state reached by breakpoint-avoiding steps. -/
theorem runAux_err_spec (prog : Program) (bps : List Int) :
    ∀ (fuel : Nat) (cpu : CPU) (ram : Ram) (steps : Nat) (l : Nat) (m : String)
      (cf : CPU) (rf : Ram),
      runAux prog bps fuel cpu ram steps = RunRes.err l m cf rf →
      ∃ c1 r1 n, AvoidSteps prog bps cpu ram c1 r1 n ∧ c1.halted = false ∧
        bps.contains c1.IP = false ∧
        step c1 prog r1 = StepRes.fail l m cf rf := by
  intro fuel
  induction fuel with
  | zero =>
      intro cpu ram steps l m cf rf h
      simp only [runAux] at h
      exact RunRes.noConfusion h
  | succ fuel ih =>
      intro cpu ram steps l m cf rf h
      simp only [runAux] at h
      by_cases hh : cpu.halted = true
      · rw [if_pos hh] at h
        exact RunRes.noConfusion h
      · rw [if_neg hh] at h
        rw [Bool.not_eq_true] at hh
        by_cases hb : bps.contains cpu.IP = true
        · rw [if_pos hb] at h
          exact RunRes.noConfusion h
        · rw [if_neg hb] at h
          rw [Bool.not_eq_true] at hb
          cases hs : step cpu prog ram with
          | ok c r =>
              rw [hs] at h
              have h2 : runAux prog bps fuel c r (steps + 1) =
                  RunRes.err l m cf rf := h
              obtain ⟨c1, r1, n, ha, hb1, hb2, hb3⟩ :=
                ih c r (steps + 1) l m cf rf h2
              exact ⟨c1, r1, n + 1,
                AvoidSteps.cons cpu ram c r c1 r1 n hh hb hs ha, hb1, hb2, hb3⟩
          | fail l2 m2 c r =>
              rw [hs] at h
              have h2 : RunRes.err l2 m2 c r = RunRes.err l m cf rf := h
              injection h2 with e1 e2 e3 e4
              subst e1; subst e2; subst e3; subst e4
              exact ⟨cpu, ram, 0, AvoidSteps.refl cpu ram, hh, hb, hs⟩
          | crash m2 c r =>
              rw [hs] at h
              exact RunRes.noConfusion h

/-- C9: `run` never executes an instruction whose address is in the
breakpoint list: a non-halted start state already at a breakpoint is
returned untouched after zero steps; every normal completion consists of
steps each taken from a non-halted state off the breakpoint list, stopping
with fuel to spare only because the CPU halted or because the instruction
pointer reached a breakpoint address, whose instruction is left unexecuted
(the returned state is exactly the state that arrived there); and an error
completion likewise arose from a step taken off the breakpoint list. -/
theorem c9_run_breakpoints (cpu : CPU) (prog : Program) (ram : Ram)
    (bps : List Int) (maxSteps : Nat) :
    (cpu.halted = false → bps.contains cpu.IP = true →
      run cpu prog ram bps maxSteps = RunRes.done cpu ram 0) ∧
    (∀ (cf : CPU) (rf : Ram) (n : Nat),
      run cpu prog ram bps maxSteps = RunRes.done cf rf n →
      AvoidSteps prog bps cpu ram cf rf n ∧ n ≤ maxSteps ∧
      (n < maxSteps → cf.halted = true ∨ bps.contains cf.IP = true)) ∧
    (∀ (l : Nat) (m : String) (cf : CPU) (rf : Ram),
      run cpu prog ram bps maxSteps = RunRes.err l m cf rf →
      ∃ c1 r1 n, AvoidSteps prog bps cpu ram c1 r1 n ∧ c1.halted = false ∧
        bps.contains c1.IP = false ∧
        step c1 prog r1 = StepRes.fail l m cf rf) := by
  refine ⟨?_, ?_, ?_⟩
  · intro hh hb
    unfold run
    cases maxSteps with
    | zero => rfl
    | succ k =>
        simp only [runAux]
        rw [if_neg (by simp [hh]), if_pos hb]
  · intro cf rf n h
    unfold run at h
    obtain ⟨n2, h1, h2, h3, h4⟩ :=
      runAux_done_spec prog bps maxSteps cpu ram 0 cf rf n h
    have he : n2 = n := by omega
    subst he
    exact ⟨h3, by omega, fun hlt => h4 (by omega)⟩
  · intro l m cf rf h
    unfold run at h
    exact runAux_err_spec prog bps maxSteps cpu ram 0 l m cf rf h

/-- Single-instruction program used by the C9 witness. -/
def prog9 : Program := mkProg [⟨"HALT", [], 1, "HALT"⟩]

/-- C9 witness: with a breakpoint at address 0, `run` from the reset state
returns immediately, with zero steps and untouched state. -/
theorem c9_run_breakpoints_witness :
    run reset prog9 ram0 [0] 100 = RunRes.done reset ram0 0 :=
  (c9_run_breakpoints reset prog9 ram0 [0] 100).1 rfl (by decide)

/-! ### C10 : POP/RET stack-underflow boundary -/

theorem exec_pop_arity (cpu : CPU) (ram : Ram) (labels : Labels)
    (ops : List Operand) (h : ops.length ≠ 1) :
    exec ("POP") ops cpu ram labels =
      ExecRes.throwE ("POP requires 1 operand") cpu ram := by
  unfold exec
  simp [h]

theorem exec_pop_underflow (cpu : CPU) (ram : Ram) (labels : Labels)
    (dst : Operand) (h : cpu.SP ≥ RAM_SIZE - 4) :
    exec ("POP") [dst] cpu ram labels =
      ExecRes.throwE ("Stack underflow") cpu ram := by
  unfold exec
  simp [h]

theorem exec_pop_memerr (cpu : CPU) (ram : Ram) (labels : Labels)
    (dst : Operand) (m : String) (h : ¬(cpu.SP ≥ RAM_SIZE - 4))
    (hdv : dvGetInt32 ram cpu.SP = Except.error m) :
    exec ("POP") [dst] cpu ram labels = ExecRes.throwE m cpu ram := by
  unfold exec
  simp [h, hdv]

theorem exec_pop_reg (cpu : CPU) (ram : Ram) (labels : Labels)
    (dst : Operand) (v : Int) (h : ¬(cpu.SP ≥ RAM_SIZE - 4))
    (hdv : dvGetInt32 ram cpu.SP = Except.ok v)
    (hty : dst.type = OpType.reg) :
    exec ("POP") [dst] cpu ram labels =
      ExecRes.next (regSet { cpu with SP := cpu.SP + 4 } (asNum dst.value) v)
        ram := by
  unfold exec
  simp [h, hdv, hty, List.getD_cons_zero]

theorem exec_pop_baddst (cpu : CPU) (ram : Ram) (labels : Labels)
    (dst : Operand) (v : Int) (h : ¬(cpu.SP ≥ RAM_SIZE - 4))
    (hdv : dvGetInt32 ram cpu.SP = Except.ok v)
    (hty : ¬(dst.type = OpType.reg)) :
    exec ("POP") [dst] cpu ram labels =
      ExecRes.throwE ("POP destination must be register")
        { cpu with SP := cpu.SP + 4 } ram := by
  unfold exec
  simp [h, hdv, hty, List.getD_cons_zero]

theorem exec_ret_underflow (cpu : CPU) (ram : Ram) (labels : Labels)
    (h : cpu.SP ≥ RAM_SIZE - 4) :
    exec ("RET") [] cpu ram labels =
      ExecRes.throwE ("Stack underflow") cpu ram := by
  unfold exec
  simp [h]

theorem exec_ret_memerr (cpu : CPU) (ram : Ram) (labels : Labels) (m : String)
    (h : ¬(cpu.SP ≥ RAM_SIZE - 4))
    (hdv : dvGetInt32 ram cpu.SP = Except.error m) :
    exec ("RET") [] cpu ram labels = ExecRes.throwE m cpu ram := by
  unfold exec
  simp [h, hdv]

theorem exec_ret_jump (cpu : CPU) (ram : Ram) (labels : Labels) (v : Int)
    (h : ¬(cpu.SP ≥ RAM_SIZE - 4))
    (hdv : dvGetInt32 ram cpu.SP = Except.ok v) :
    exec ("RET") [] cpu ram labels =
      ExecRes.jump { cpu with IP := v, SP := cpu.SP + 4 } ram := by
  unfold exec
  simp [h, hdv]

/-- The only error a `DataView.getInt32` can produce is the RangeError
message. -/
theorem dvGetInt32_error_msg (ram : Ram) (a : Int) (m : String)
    (h : dvGetInt32 ram a = Except.error m) : m = rangeErrMsg := by
  unfold dvGetInt32 at h
  split at h
  · exact Except.noConfusion h
  · injection h with e
    exact e.symm

/-- C10: POP (with its destination operand) and RET throw `Stack underflow`
exactly when SP ≥ 4092 = RAM_SIZE - 4 on entry, leaving CPU and memory
unchanged; with SP below 4092 neither POP (whatever its operand list) nor
RET can throw `Stack underflow`.  `reset` starts SP at 4092, so immediately
after reset every POP or RET fails, and the word at bytes 4092–4095 can
never be popped even though a `DataView` word read at address 4092 is in
bounds for the 4096-byte RAM. -/
theorem c10_pop_ret_underflow (cpu : CPU) (ram : Ram) (labels : Labels)
    (dst : Operand) :
    (cpu.SP ≥ 4092 →
      exec ("POP") [dst] cpu ram labels =
        ExecRes.throwE ("Stack underflow") cpu ram ∧
      exec ("RET") [] cpu ram labels =
        ExecRes.throwE ("Stack underflow") cpu ram) ∧
    (cpu.SP < 4092 →
      (∀ (ops : List Operand) (c : CPU) (r : Ram),
        exec ("POP") ops cpu ram labels ≠
          ExecRes.throwE ("Stack underflow") c r) ∧
      (∀ (c : CPU) (r : Ram),
        exec ("RET") [] cpu ram labels ≠
          ExecRes.throwE ("Stack underflow") c r)) ∧
    reset.SP = 4092 ∧ RAM_SIZE - 4 = 4092 ∧
    (ram.length = 4096 →
      dvGetInt32 ram 4092 = Except.ok (read32 ram 4092)) := by
  refine ⟨?_, ?_, by decide, by decide, ?_⟩
  · intro h
    have h2 : cpu.SP ≥ RAM_SIZE - 4 := by unfold RAM_SIZE; omega
    exact ⟨exec_pop_underflow cpu ram labels dst h2,
      exec_ret_underflow cpu ram labels h2⟩
  · intro h
    have h2 : ¬(cpu.SP ≥ RAM_SIZE - 4) := by unfold RAM_SIZE; omega
    constructor
    · intro ops c r heq
      by_cases harr : ops.length = 1
      · cases ops with
        | nil => simp at harr
        | cons d t =>
            cases t with
            | cons d2 t2 =>
                simp only [List.length_cons] at harr
                omega
            | nil =>
                cases hdv : dvGetInt32 ram cpu.SP with
                | error m =>
                    rw [exec_pop_memerr cpu ram labels d m h2 hdv] at heq
                    injection heq with e1 e2 e3
                    rw [dvGetInt32_error_msg ram cpu.SP m hdv] at e1
                    exact absurd e1 (by decide)
                | ok v =>
                    by_cases hty : d.type = OpType.reg
                    · rw [exec_pop_reg cpu ram labels d v h2 hdv hty] at heq
                      exact ExecRes.noConfusion heq
                    · rw [exec_pop_baddst cpu ram labels d v h2 hdv hty] at heq
                      injection heq with e1 e2 e3
                      exact absurd e1 (by decide)
      · rw [exec_pop_arity cpu ram labels ops harr] at heq
        injection heq with e1 e2 e3
        exact absurd e1 (by decide)
    · intro c r heq
      cases hdv : dvGetInt32 ram cpu.SP with
      | error m =>
          rw [exec_ret_memerr cpu ram labels m h2 hdv] at heq
          injection heq with e1 e2 e3
          rw [dvGetInt32_error_msg ram cpu.SP m hdv] at e1
          exact absurd e1 (by decide)
      | ok v =>
          rw [exec_ret_jump cpu ram labels v h2 hdv] at heq
          exact ExecRes.noConfusion heq
  · intro hlen
    unfold dvGetInt32
    rw [if_pos ⟨by omega, by omega⟩]
    rfl

/-- CPU with the stack pointer far below the underflow boundary. -/
def cpuC10 : CPU := { reset with SP := 0 }

/-- C10 witness: at the reset state (SP = 4092) POP and RET throw
`Stack underflow` with the state unchanged, the `DataView` word read at
4092 on the zeroed RAM is in bounds, and with SP = 0 a POP cannot throw
`Stack underflow`. -/
theorem c10_pop_ret_underflow_witness :
    exec ("POP") [regop 0] reset ram0 [] =
      ExecRes.throwE ("Stack underflow") reset ram0 ∧
    exec ("RET") [] reset ram0 [] =
      ExecRes.throwE ("Stack underflow") reset ram0 ∧
    dvGetInt32 ram0 4092 = Except.ok (read32 ram0 4092) ∧
    exec ("POP") [regop 0] cpuC10 ram0 [] ≠
      ExecRes.throwE ("Stack underflow") reset ram0 :=
  have H := c10_pop_ret_underflow reset ram0 [] (regop 0)
  have H2 := c10_pop_ret_underflow cpuC10 ram0 [] (regop 0)
  have h1 := H.1 (by decide)
  ⟨h1.1, h1.2, H.2.2.2.2 ram0_length,
    (H2.2.1 (by decide)).1 [regop 0] reset ram0⟩

end AsmEngine
